import Mathlib

/-!
# Uno server: rule engine, deck and lobby state machine

A shallow embedding of `src/Server/index.js`.  Every definition below is a
transcription of the JavaScript function of the same name; the doc comment of
each definition says which lines it embeds and how mutable JavaScript state is
represented.

Representation choices

* A card object is a `Card` record.  `color` and `value` are optional fields
  (`none` is JavaScript `undefined`).  Card objects are created only by
  `createDeck`, which gives each one a fresh `id` from the global counter, so
  an object is identified by its `id`.
* An array slot that holds `undefined` (the result of `Array.prototype.pop`
  on an empty array) is `none`; a hand is therefore a `List (Option Card)`.
* `Math.random` is an argument `rnd : Nat → Nat`: `rnd i` is the raw random
  draw used at loop position `i` of a shuffle, reduced into `0..i`.
* A handler that throws a `TypeError` (property access on `undefined`)
  returns `none`.
-/

namespace Uno

/-! ## Cards -/

/-- The four colour strings `"red"`, `"green"`, `"blue"`, `"yellow"`. -/
inductive Color
  | red | green | blue | yellow
  deriving DecidableEq, Repr

/-- The six `type` strings; `wildPlus4` is `"wild+4"`. -/
inductive CardType
  | number | skip | reverse | plus2 | wild | wildPlus4
  deriving DecidableEq, Repr

/-- A card object `{ id, color, value, type }`. -/
structure Card where
  id : Nat
  color : Option Color
  value : Option Nat
  type : CardType
  deriving DecidableEq, Repr

/-- The test `card.type === "wild" || card.type === "wild+4"`. -/
def Card.isWild (c : Card) : Bool :=
  c.type == CardType.wild || c.type == CardType.wildPlus4

/-- Embedding of `canPlayCard(card, topCard)` (index.js lines 48-63).
`topCard = none` is the falsy `null`/`undefined`; a colour is truthy exactly
when it is present. -/
def canPlayCard (card : Card) (topCard : Option Card) : Bool :=
  match topCard with
  | none => true
  | some top =>
    if card.type = CardType.wild ∨ card.type = CardType.wildPlus4 then true
    else if (top.type = CardType.wild ∨ top.type = CardType.wildPlus4) ∧ top.color.isSome then
      decide (card.color = top.color)
    else if card.color.isSome ∧ top.color.isSome ∧ card.color = top.color then true
    else if card.type = CardType.number ∧ top.type = CardType.number ∧ card.value = top.value then true
    else if card.type ≠ CardType.number ∧ card.type = top.type then true
    else false

/-- A card as `createDeck` builds it (with, for a wild, the colour a later
`chooseColor` may have attached): number cards carry a colour and a value in
`0..9`, skip/reverse/plus2 carry a colour and no value, wild cards carry no
value. -/
def Card.wellFormed (c : Card) : Prop :=
  match c.type with
  | CardType.number => c.color.isSome ∧ ∃ v, c.value = some v ∧ v ≤ 9
  | CardType.wild => c.value = none
  | CardType.wildPlus4 => c.value = none
  | _ => c.color.isSome ∧ c.value = none

instance (c : Card) : Decidable c.wellFormed := by
  unfold Card.wellFormed
  cases c.type <;> first
    | exact inferInstanceAs (Decidable (_ ∧ _))
    | exact inferInstanceAs (Decidable (_ = _))

/-- The legality rule in the words of the specification (section 4.2):
(a) no top card, or (b) the card is a wild or wild+4, or (c) the top card is
a wild or wild+4 carrying a chosen colour and the card has that colour, or
(d) the top card is not a colour-resolved wild and the card has the colour of
the top card, or both are number cards of equal value, or both have the same
non-number type. -/
def isLegalPlay (card : Card) (topCard : Option Card) : Prop :=
  topCard = none ∨
  (card.type = CardType.wild ∨ card.type = CardType.wildPlus4) ∨
  (∃ top col, topCard = some top ∧
      (top.type = CardType.wild ∨ top.type = CardType.wildPlus4) ∧
      top.color = some col ∧ card.color = some col) ∨
  (∃ top, topCard = some top ∧
      ¬ ((top.type = CardType.wild ∨ top.type = CardType.wildPlus4) ∧ top.color ≠ none) ∧
      (card.color = top.color ∨
       (card.type = CardType.number ∧ top.type = CardType.number ∧ card.value = top.value) ∨
       (card.type ≠ CardType.number ∧ card.type = top.type)))

/-! ## Deck -/

/-- The destructuring swap `[deck[i], deck[j]] = [deck[j], deck[i]]` of
`shuffle` (index.js line 42); both indices are inside the array there. -/
def swapAt {α : Type} (deck : List α) (i j : Nat) : List α :=
  match deck[i]?, deck[j]? with
  | some a, some b => (deck.set i b).set j a
  | _, _ => deck

/-- The loop of `shuffle` (index.js lines 40-43) from position `i` down to 1:
`j = Math.floor(Math.random() * (i + 1))` is `rnd i % (i + 1)`, so that every
value in `0..i` and no other can be chosen. -/
def shuffleFrom {α : Type} (rnd : Nat → Nat) : Nat → List α → List α
  | 0, deck => deck
  | i + 1, deck => shuffleFrom rnd i (swapAt deck (i + 1) (rnd (i + 1) % (i + 2)))

/-- Embedding of `shuffle(deck)` (index.js lines 39-45): Fisher-Yates from
`deck.length - 1` down to 1. -/
def shuffle {α : Type} (rnd : Nat → Nat) (deck : List α) : List α :=
  shuffleFrom rnd (deck.length - 1) deck

/-- One pass of `colors.forEach` in `createDeck` (index.js lines 22-29): the
state is the deck built so far and the global counter `cardId`. -/
def pushColorCards (st : List Card × Nat) (color : Color) : List Card × Nat :=
  (st.1 ++ (List.range 10).map (fun i => Card.mk (st.2 + i) (some color) (some i) CardType.number)
        ++ [Card.mk (st.2 + 10) (some color) none CardType.skip,
            Card.mk (st.2 + 11) (some color) none CardType.reverse,
            Card.mk (st.2 + 12) (some color) none CardType.plus2],
   st.2 + 13)

/-- One pass of the wild loop of `createDeck` (index.js lines 31-34). -/
def pushWildCards (st : List Card × Nat) (_i : Nat) : List Card × Nat :=
  (st.1 ++ [Card.mk st.2 none none CardType.wild,
            Card.mk (st.2 + 1) none none CardType.wildPlus4],
   st.2 + 2)

/-- The array `createDeck` holds just before `return shuffle(deck)`, with the
value of the counter `cardId` afterwards. -/
def buildDeck (cardId : Nat) : List Card × Nat :=
  (List.range 4).foldl pushWildCards
    ([Color.red, Color.green, Color.blue, Color.yellow].foldl pushColorCards ([], cardId))

/-- Embedding of `createDeck()` (index.js lines 18-37); the global `cardId`
is passed in and its new value returned. -/
def createDeck (rnd : Nat → Nat) (cardId : Nat) : List Card × Nat :=
  (shuffle rnd (buildDeck cardId).1, (buildDeck cardId).2)

/-- What a card shows, its `id` left out. -/
def Card.face (c : Card) : CardType × Option Color × Option Nat :=
  (c.type, c.color, c.value)

/-- The fixed composition of the specification (section 3), as faces: for
each of the four colours one number card of each value 0..9, one skip, one
reverse and one plus2; then 4 wild and 4 wild+4 cards without a colour. -/
def deckComposition : List (CardType × Option Color × Option Nat) :=
  ([Color.red, Color.green, Color.blue, Color.yellow].flatMap fun col =>
      (List.range 10).map (fun v => (CardType.number, some col, some v)) ++
      [(CardType.skip, some col, none), (CardType.reverse, some col, none),
       (CardType.plus2, some col, none)]) ++
  List.replicate 4 (CardType.wild, none, none) ++
  List.replicate 4 (CardType.wildPlus4, none, none)

/-! ## Lobby state -/

/-- A player object `{ id, nickname, hand, isBot }`; `id` is the socket id. -/
structure Player where
  id : Nat
  nickname : String
  hand : List (Option Card)
  isBot : Bool
  deriving DecidableEq, Repr

/-- A lobby object (index.js lines 156-169).  `topCard = none` is `null`.
The timer handle `turnTimeout` is not a field: a tick is an event of the
model, and `tick` itself tests `started`. -/
structure Lobby where
  id : Nat
  players : List Player
  deck : List Card
  discardPile : List Card
  topCard : Option Card
  currentPlayer : Int
  direction : Int
  started : Bool
  winner : Option String
  awaitingColor : Bool
  turnTime : Int
  deriving DecidableEq, Repr

/-- The global `leaderboard` object: nickname to number of wins. -/
abbrev Leaderboard := List (String × Nat)

/-- The read `leaderboard[nickname] || 0`. -/
def lbWins (lb : Leaderboard) (nickname : String) : Nat :=
  match lb.find? (fun e => e.1 == nickname) with
  | some e => e.2
  | none => 0

/-- The write `leaderboard[nickname] = (leaderboard[nickname] || 0) + 1`
(index.js line 137). -/
def lbIncrement (lb : Leaderboard) (nickname : String) : Leaderboard :=
  if lb.any (fun e => e.1 == nickname) then
    lb.map (fun e => if e.1 == nickname then (e.1, e.2 + 1) else e)
  else lb ++ [(nickname, 1)]

/-- Embedding of `createLobby()` (index.js lines 155-170); `now` is
`Date.now()`.  Returns the lobby and the new value of `cardId`. -/
def createLobby (rnd : Nat → Nat) (now cardId : Nat) : Lobby × Nat :=
  ({ id := now, players := [], deck := (createDeck rnd cardId).1, discardPile := [],
     topCard := none, currentPlayer := 0, direction := 1, started := false,
     winner := none, awaitingColor := false, turnTime := 30 },
   (createDeck rnd cardId).2)

/-- Embedding of `drawCardFromDeck(game)` (index.js lines 65-71).  The result
of `game.deck.pop()` is `none` when the array is empty. -/
def drawCardFromDeck (rnd : Nat → Nat) (game : Lobby) : Option Card × Lobby :=
  let g1 := if game.deck.length = 0
            then { game with deck := shuffle rnd game.discardPile, discardPile := [] }
            else game
  (g1.deck.getLast?, { g1 with deck := g1.deck.dropLast })

/-- Embedding of `nextTurn(game)` (index.js lines 73-80).  The JavaScript
remainder takes the sign of the dividend, which is `Int.tmod`.  With an empty
`players` array JavaScript yields `NaN`, which `Int` does not hold: the
theorems about `nextTurn` are stated for a non-empty roster. -/
def nextTurn (game : Lobby) : Lobby :=
  if game.direction = 1 then
    { game with currentPlayer := Int.tmod (game.currentPlayer + 1) game.players.length }
  else
    { game with currentPlayer :=
        Int.tmod (game.currentPlayer - 1 + game.players.length) game.players.length }

/-- The array read `players[currentPlayer]`, as an index: `none` when the
read yields `undefined`. -/
def seatIndex (game : Lobby) : Option Nat :=
  if 0 ≤ game.currentPlayer ∧ game.currentPlayer.toNat < game.players.length
  then some game.currentPlayer.toNat else none

/-- The call `p.hand.push(x)` for the player object at index `idx`. -/
def pushHand (game : Lobby) (idx : Nat) (x : Option Card) : Lobby :=
  match game.players[idx]? with
  | some p => { game with players := game.players.set idx { p with hand := p.hand ++ [x] } }
  | none => game

/-- The statement `p.hand.push(drawCardFromDeck(game))` for the player object
at index `idx`. -/
def drawInto (rnd : Nat → Nat) (game : Lobby) (idx : Nat) : Lobby :=
  pushHand (drawCardFromDeck rnd game).2 idx (drawCardFromDeck rnd game).1

/-- The loop `for (let i = 0; i < n; i++) p.hand.push(drawCardFromDeck(game))`.
One `rnd` serves every draw of the loop: a draw that recycles empties the
discard pile, so at most one shuffle of the loop sees more than one card. -/
def drawMany (rnd : Nat → Nat) : Nat → Lobby → Nat → Lobby
  | 0, game, _ => game
  | n + 1, game, idx => drawMany rnd n (drawInto rnd game idx) idx

/-- The call `player.hand.findIndex(c => c.id === card.id)` (index.js line
107): `some (some i)` is the index `i`, `some none` is `-1`, and `none` is the
`TypeError` raised when an `undefined` slot is reached before a match. -/
def findIndexById : List (Option Card) → Nat → Option (Option Nat)
  | [], _ => some none
  | none :: _, _ => none
  | some c :: rest, cid =>
    if c.id = cid then some (some 0)
    else match findIndexById rest cid with
      | none => none
      | some none => some none
      | some (some i) => some (some (i + 1))

/-- The special effects of `playCard` (index.js lines 124-132) for a played
card of the given type; `none` is the `TypeError` of `nextPlayer.hand` when
`players[currentPlayer]` is `undefined`. -/
def applyEffect (rnd : Nat → Nat) (game : Lobby) (t : CardType) : Option Lobby :=
  match t with
  | CardType.reverse => some { game with direction := game.direction * -1 }
  | CardType.skip => some (nextTurn game)
  | CardType.plus2 =>
    match seatIndex (nextTurn game) with
    | some i => some (drawMany rnd 2 (nextTurn game) i)
    | none => none
  | _ => some game

/-- The statements `playedCard = player.hand.splice(idx, 1)[0]`,
`game.discardPile.push(playedCard)`, `game.topCard = playedCard` of `playCard`
(index.js lines 113-115); `player` is the object at index `pidx`. -/
def moveToDiscard (game : Lobby) (pidx : Nat) (player : Player) (idx : Nat) (playedCard : Card) :
    Lobby :=
  { game with
      players := game.players.set pidx { player with hand := player.hand.eraseIdx idx },
      discardPile := game.discardPile ++ [playedCard],
      topCard := some playedCard }

/-- The end of `playCard` (index.js lines 134-152): the win check on the
player object at index `pidx`, and otherwise the turn advance with the clock
reset. -/
def winCheck (lb : Leaderboard) (game : Lobby) (pidx : Nat) : Option (Lobby × Leaderboard) :=
  match game.players[pidx]? with
  | none => none
  | some p =>
    if p.hand.length = 0 then
      some ({ game with winner := some p.nickname, started := false },
            if p.isBot = false then lbIncrement lb p.nickname else lb)
    else some ({ nextTurn game with turnTime := 30 }, lb)

/-- Embedding of `playCard(game, player, card, lobby)` (index.js lines
106-153), called with `game` and `lobby` the same object.  `pidx` is the
index in `players` of the object `player`; only `card.id` of the payload is
read.  The result pairs the lobby with the global leaderboard. -/
def playCard (rnd : Nat → Nat) (lb : Leaderboard) (game : Lobby) (pidx : Nat) (card : Card) :
    Option (Lobby × Leaderboard) :=
  match game.players[pidx]? with
  | none => none
  | some player =>
    match findIndexById player.hand card.id with
    | none => none
    | some none => some (game, lb)
    | some (some idx) =>
      match player.hand[idx]? with
      | some (some candidate) =>
        if canPlayCard candidate game.topCard = false then some (game, lb)
        else if candidate.isWild = true then
          some ({ moveToDiscard game pidx player idx candidate with awaitingColor := true }, lb)
        else
          match applyEffect rnd (moveToDiscard game pidx player idx candidate) candidate.type with
          | none => none
          | some g2 => winCheck lb g2 pidx
      | _ => none

/-- The write `c.color = col` on the card object with identity `cid`, seen
from one reference `c`. -/
def Card.paint (cid : Nat) (col : Color) (c : Card) : Card :=
  if c.id = cid then { c with color := some col } else c

/-- The write `lobby.topCard.color = color` (index.js line 244).  `topCard` is
a reference to a card object that the discard pile (after `playCard`), the
deck or a hand (after a recycle) may hold as well, so every reference to the
object `cid` sees the new colour. -/
def paintCard (game : Lobby) (cid : Nat) (col : Color) : Lobby :=
  { game with
      deck := game.deck.map (Card.paint cid col),
      discardPile := game.discardPile.map (Card.paint cid col),
      topCard := game.topCard.map (Card.paint cid col),
      players := game.players.map
        (fun p => { p with hand := p.hand.map (Option.map (Card.paint cid col)) }) }

/-- The test `l.players.some(p => p.id === socket.id)`. -/
def seated (game : Lobby) (sid : Nat) : Bool :=
  game.players.any (fun p => p.id == sid)

/-- The body of the `playCard` handler (index.js lines 232-236) once
`lobbies.find` has returned `lobby` for the socket `sid`. -/
def onPlayCard (rnd : Nat → Nat) (lb : Leaderboard) (lobby : Lobby) (sid : Nat) (card : Card) :
    Option (Lobby × Leaderboard) :=
  if lobby.started = false then some (lobby, lb)
  else
    match lobby.players.findIdx? (fun p => p.id == sid) with
    | none => some (lobby, lb)
    | some pidx =>
      match seatIndex lobby with
      | none => none
      | some ci =>
        match lobby.players[ci]? with
        | none => none
        | some cur =>
          if cur.id ≠ sid then some (lobby, lb) else playCard rnd lb lobby pidx card

/-- The body of the `chooseColor` handler (index.js lines 241-256) once
`lobbies.find` has returned `lobby` for the calling socket. -/
def onChooseColor (rnd : Nat → Nat) (lobby : Lobby) (color : Color) : Option Lobby :=
  if lobby.started = false then some lobby
  else
    match lobby.topCard with
    | none => some lobby
    | some top =>
      if top.isWild = true then
        let g1 : Lobby := { paintCard lobby top.id color with awaitingColor := false }
        if top.type = CardType.wildPlus4 then
          match seatIndex (nextTurn g1) with
          | none => none
          | some i => some { nextTurn (drawMany rnd 4 (nextTurn g1) i) with turnTime := 30 }
        else some { nextTurn g1 with turnTime := 30 }
      else some lobby

/-- The body of the `drawCard` handler (index.js lines 261-269) once
`lobbies.find` has returned `lobby` for the socket `sid`. -/
def onDrawCard (rnd : Nat → Nat) (lobby : Lobby) (sid : Nat) : Option Lobby :=
  if lobby.started = false then some lobby
  else
    match lobby.players.findIdx? (fun p => p.id == sid) with
    | none => some lobby
    | some pidx =>
      match seatIndex lobby with
      | none => none
      | some ci =>
        match lobby.players[ci]? with
        | none => none
        | some cur =>
          if cur.id ≠ sid then some lobby
          else some { nextTurn (drawInto rnd lobby pidx) with turnTime := 30 }

/-- The timer callback `tick` of `startTurnTimer` (index.js lines 88-101). -/
def tick (rnd : Nat → Nat) (lobby : Lobby) : Lobby :=
  if lobby.started = false then lobby
  else
    let g1 : Lobby := { lobby with turnTime := lobby.turnTime - 1 }
    if g1.turnTime ≤ 0 then
      let g2 := match seatIndex g1 with
        | some i => drawInto rnd g1 i
        | none => g1
      { nextTurn g2 with turnTime := 30 }
    else g1

/-- The deal of the `joinGame` handler (index.js lines 219-221): seven draws
for each player object in array order, from index `i` on. -/
def dealFrom (rnd : Nat → Nat) : Nat → Nat → Lobby → Lobby
  | 0, _, game => game
  | n + 1, i, game => dealFrom rnd n (i + 1) (drawMany rnd 7 game i)

/-- The body of the `joinGame` handler (index.js lines 213-225) once
`findLobby` has returned `lobby`. -/
def joinLobby (rnd : Nat → Nat) (lobby : Lobby) (sid : Nat) (nickname : String) : Lobby :=
  let g1 : Lobby :=
    { lobby with players := lobby.players ++ [{ id := sid, nickname := nickname, hand := [], isBot := false }] }
  if g1.players.length = 4 then
    let g2 := dealFrom rnd g1.players.length 0 { g1 with started := true }
    { (drawCardFromDeck rnd g2).2 with topCard := (drawCardFromDeck rnd g2).1, turnTime := 30 }
  else g1

/-- Every card reference held by some hand, in seating order (`undefined`
slots left out). -/
def handCards (game : Lobby) : List Card :=
  game.players.flatMap (fun p => p.hand.filterMap id)

/-- The hand of the player object at index `i` (empty when there is none). -/
def handAt (game : Lobby) (i : Nat) : List (Option Card) :=
  match game.players[i]? with
  | some p => p.hand
  | none => []

/-- The number of cards in the draw pile and the discard pile together. -/
def pool (game : Lobby) : Nat :=
  game.deck.length + game.discardPile.length

/-! ## Server state and socket handlers -/

/-- The module-level variables `lobbies`, `leaderboard` and `cardId`
(index.js lines 13-15). -/
structure Server where
  lobbies : List Lobby
  leaderboard : Leaderboard
  cardId : Nat
  deriving DecidableEq, Repr

/-- The lookup `lobbies.find(l => l.players.some(p => p.id === socket.id))`,
as an index into `lobbies`. -/
def findSeatedLobby (s : Server) (sid : Nat) : Option Nat :=
  s.lobbies.findIdx? (fun l => seated l sid)

/-- Embedding of `findLobby()` (index.js lines 200-207): the index of the
lobby returned, and the server with the new lobby appended when one was
created. -/
def findLobby (rnd : Nat → Nat) (now : Nat) (s : Server) : Nat × Server :=
  match s.lobbies.findIdx? (fun l => !l.started && decide (l.players.length < 4)) with
  | some i => (i, s)
  | none =>
    (s.lobbies.length,
     { s with lobbies := s.lobbies ++ [(createLobby rnd now s.cardId).1],
              cardId := (createLobby rnd now s.cardId).2 })

/-- The `joinGame` handler (index.js lines 210-228) for the socket `sid`. -/
def handleJoinGame (rnd : Nat → Nat) (now : Nat) (s : Server) (sid : Nat) (nickname : String) :
    Server :=
  let s1 := (findLobby rnd now s).2
  let li := (findLobby rnd now s).1
  match s1.lobbies[li]? with
  | some lobby => { s1 with lobbies := s1.lobbies.set li (joinLobby rnd lobby sid nickname) }
  | none => s1

/-- The `playCard` handler (index.js lines 230-237) for the socket `sid`;
`none` is an uncaught `TypeError`. -/
def handlePlayCard (rnd : Nat → Nat) (s : Server) (sid : Nat) (card : Card) : Option Server :=
  match findSeatedLobby s sid with
  | none => some s
  | some li =>
    match s.lobbies[li]? with
    | none => some s
    | some lobby =>
      match onPlayCard rnd s.leaderboard lobby sid card with
      | none => none
      | some r => some { s with lobbies := s.lobbies.set li r.1, leaderboard := r.2 }

/-- The `chooseColor` handler (index.js lines 239-257) for the socket `sid`;
`none` is an uncaught `TypeError`. -/
def handleChooseColor (rnd : Nat → Nat) (s : Server) (sid : Nat) (color : Color) :
    Option Server :=
  match findSeatedLobby s sid with
  | none => some s
  | some li =>
    match s.lobbies[li]? with
    | none => some s
    | some lobby =>
      match onChooseColor rnd lobby color with
      | none => none
      | some l => some { s with lobbies := s.lobbies.set li l }

/-- The `drawCard` handler (index.js lines 259-270) for the socket `sid`;
`none` is an uncaught `TypeError`. -/
def handleDrawCard (rnd : Nat → Nat) (s : Server) (sid : Nat) : Option Server :=
  match findSeatedLobby s sid with
  | none => some s
  | some li =>
    match s.lobbies[li]? with
    | none => some s
    | some lobby =>
      match onDrawCard rnd lobby sid with
      | none => none
      | some l => some { s with lobbies := s.lobbies.set li l }

/-- The `disconnect` handler (index.js lines 272-280) for the socket `sid`:
the first player object with that id becomes a bot. -/
def handleDisconnect (s : Server) (sid : Nat) : Server :=
  match findSeatedLobby s sid with
  | none => s
  | some li =>
    match s.lobbies[li]? with
    | none => s
    | some lobby =>
      match lobby.players.findIdx? (fun p => p.id == sid) with
      | none => s
      | some pidx =>
        match lobby.players[pidx]? with
        | none => s
        | some p =>
          let bot : Player := { p with isBot := true }
          let lobby1 : Lobby := { lobby with players := lobby.players.set pidx bot }
          { s with lobbies := s.lobbies.set li lobby1 }

/-- A timer tick of the lobby at index `li`. -/
def handleTick (rnd : Nat → Nat) (s : Server) (li : Nat) : Server :=
  match s.lobbies[li]? with
  | none => s
  | some lobby => { s with lobbies := s.lobbies.set li (tick rnd lobby) }

/-! ## Concrete tables

Small lobbies used to evaluate the handlers.  Card ids follow `buildDeck 0`:
red is 0..12, green 13..25, blue 26..38, yellow 39..51, wild cards 52..59. -/

def red3 : Card := ⟨3, some Color.red, some 3, CardType.number⟩
def red5 : Card := ⟨5, some Color.red, some 5, CardType.number⟩
def redPlus2 : Card := ⟨12, some Color.red, none, CardType.plus2⟩
def green1 : Card := ⟨14, some Color.green, some 1, CardType.number⟩
def green2 : Card := ⟨15, some Color.green, some 2, CardType.number⟩
def blue1 : Card := ⟨27, some Color.blue, some 1, CardType.number⟩
def blue6 : Card := ⟨32, some Color.blue, some 6, CardType.number⟩
def blue7 : Card := ⟨33, some Color.blue, some 7, CardType.number⟩
def yellow1 : Card := ⟨40, some Color.yellow, some 1, CardType.number⟩
def yellow6 : Card := ⟨45, some Color.yellow, some 6, CardType.number⟩
def yellow7 : Card := ⟨46, some Color.yellow, some 7, CardType.number⟩
def yellow8 : Card := ⟨47, some Color.yellow, some 8, CardType.number⟩
def yellow9 : Card := ⟨48, some Color.yellow, some 9, CardType.number⟩
def wildA : Card := ⟨52, none, none, CardType.wild⟩
def wildFourA : Card := ⟨53, none, none, CardType.wildPlus4⟩
def wildFourD : Card := ⟨59, none, none, CardType.wildPlus4⟩

/-- The random source whose every draw is 0. -/
def rndZero : Nat → Nat := fun _ => 0

/-- The random source whose every draw is 1. -/
def rndOne : Nat → Nat := fun _ => 1

/-- A connected player with socket id `sid` holding `hand`. -/
def seat (sid : Nat) (nick : String) (hand : List Card) : Player :=
  { id := sid, nickname := nick, hand := hand.map some, isBot := false }

/-- A started lobby of the four players A, B, C, D (socket ids 1..4, seated
in that order) with direction +1 and 30 seconds on the clock. -/
def table (hands : List (List Card)) (deck discard : List Card) (top : Option Card)
    (cur : Int) (awaiting : Bool) : Lobby :=
  { id := 0,
    players := (List.zip [(1, "A"), (2, "B"), (3, "C"), (4, "D")] hands).map
      (fun e => seat e.1.1 e.1.2 e.2),
    deck := deck, discardPile := discard, topCard := top, currentPlayer := cur,
    direction := 1, started := true, winner := none, awaitingColor := awaiting,
    turnTime := 30 }

/-- It is A's turn, A holds a single wild card, the top card is a red 3. -/
def lobbyLastWild : Lobby :=
  table [[wildA], [green1, green2], [blue1], [yellow1]] [yellow9, yellow8] [red3]
    (some red3) 0 false

/-- The top card is a wild already resolved to red, no colour choice is
pending, and it is B's turn. -/
def lobbyResolved : Lobby :=
  table [[red5], [green1, green2], [blue1], [yellow1]] [yellow9, yellow8]
    [red3, { wildA with color := some Color.red }]
    (some { wildA with color := some Color.red }) 1 false

/-- A has just played a wild on a red 3 and has not chosen a colour yet. -/
def lobbyAwaiting : Lobby :=
  table [[wildFourA, red5], [green1, green2], [blue1], [yellow1]] [yellow9, yellow8]
    [red3, wildA] (some wildA) 0 true

/-- The draw pile is empty; the discard pile holds a red 3 and, on top, the
red 5 that is the current top card. -/
def lobbyEmptyDeck : Lobby :=
  table [[blue7], [green1, green2], [blue1], [yellow1]] [] [red3, red5] (some red5) 0 false

/-- It is A's turn, A holds a red plus2 and a blue 7, the top card is a
red 3. -/
def lobbyPlus2 : Lobby :=
  table [[redPlus2, blue7], [green1, green2], [blue1], [yellow1]] [yellow9, yellow8] [red3]
    (some red3) 0 false

/-- A has just played a wild+4 on a red 3 and has not chosen a colour yet. -/
def lobbyWildFour : Lobby :=
  table [[red5], [green1, green2], [blue1], [yellow1]] [yellow9, yellow8, yellow7, yellow6]
    [red3, wildFourA] (some wildFourA) 0 true

/-- The server after the sockets 1, 2, 3, 4 have joined an empty server in
that order, every random draw being 0. -/
def joinedFour : Server :=
  handleJoinGame rndZero 7 (handleJoinGame rndZero 7 (handleJoinGame rndZero 7
    (handleJoinGame rndZero 7 ⟨[], [], 0⟩ 1 "A") 2 "B") 3 "C") 4 "D"

/-- Where the cards of a lobby are: the top card, the draw pile, the hands
and the discard pile. -/
def cardPlaces (l : Lobby) : Option Card × List Card :=
  (l.topCard, l.deck ++ handCards l ++ l.discardPile)

/-- It is A's turn, A holds a single red 5, the top card is a red 3. -/
def lobbyLastRed : Lobby :=
  table [[red5], [green1, green2], [blue1], [yellow1]] [yellow9, yellow8] [red3]
    (some red3) 0 false

/-! ## Views -/

/-- One entry `{ ...c, playable }` of the `hand` array of a view. -/
structure HandView where
  card : Option Card
  playable : Bool
  deriving DecidableEq, Repr

/-- One entry `{ nickname, handCount }` of the `players` array of a view. -/
structure SeatView where
  nickname : String
  handCount : Nat
  deriving DecidableEq, Repr

/-- The object `gameForPlayer` (index.js lines 174-195). -/
structure GameView where
  id : Nat
  players : List SeatView
  hand : List HandView
  topCard : Option Card
  currentPlayer : Int
  direction : Int
  started : Bool
  winner : Option String
  leaderboard : Leaderboard
  turnTime : Int
  deriving DecidableEq, Repr

/-- The expression for `playable` (index.js lines 183-186) for the hand slot
`c` of the player object `p`, with the short-circuit order of `&&`.  `none` is
a `TypeError`: `players[currentPlayer]` is `undefined`, or `canPlayCard` reads
`card.type` of an `undefined` slot (which it does not when `topCard` is
`null`). -/
def playableFlag (lobbyGame : Lobby) (p : Player) (c : Option Card) : Option Bool :=
  if lobbyGame.awaitingColor = true then some false
  else if lobbyGame.started = false then some false
  else
    match seatIndex lobbyGame with
    | none => none
    | some ci =>
      match lobbyGame.players[ci]? with
      | none => none
      | some cur =>
        if p.id ≠ cur.id then some false
        else
          match lobbyGame.topCard, c with
          | none, _ => some true
          | some _, none => none
          | some top, some card => some (canPlayCard card (some top))

/-- The array `p.hand.map(c => ({ ...c, playable: ... }))` (index.js lines
180-187); `none` when the flag of some slot raises a `TypeError`. -/
def handView (lobbyGame : Lobby) (p : Player) : List (Option Card) → Option (List HandView)
  | [] => some []
  | c :: rest =>
    match playableFlag lobbyGame p c with
    | none => none
    | some b =>
      match handView lobbyGame p rest with
      | none => none
      | some vs => some ({ card := c, playable := b } :: vs)

/-- The view `gameForPlayer` built for the player object `p` (index.js lines
174-195); `none` is a `TypeError`. -/
def viewFor (lb : Leaderboard) (lobbyGame lobby : Lobby) (p : Player) : Option GameView :=
  match handView lobbyGame p p.hand with
  | none => none
  | some hand =>
    some { id := lobby.id,
           players := lobby.players.map
             (fun pl => { nickname := pl.nickname, handCount := pl.hand.length }),
           hand := hand,
           topCard := lobbyGame.topCard,
           currentPlayer := lobbyGame.currentPlayer,
           direction := lobbyGame.direction,
           started := lobbyGame.started,
           winner := lobbyGame.winner,
           leaderboard := lb,
           turnTime := lobby.turnTime }

/-- Embedding of `broadcastGameState(lobbyGame, lobby)` (index.js lines
172-198): for each player object, the socket id the view is emitted to and
the view; a `none` view is the `TypeError` that ends the `forEach`. -/
def broadcastGameState (lb : Leaderboard) (lobbyGame lobby : Lobby) :
    List (Nat × Option GameView) :=
  lobby.players.map (fun p => (p.id, viewFor lb lobbyGame lobby p))

/-! ## Reachable server states -/

/-- The server when the process starts (index.js lines 13-15). -/
def emptyServer : Server := { lobbies := [], leaderboard := [], cardId := 0 }

/-- One event handled to completion: a socket event whose handler returns, or
a timer tick of some lobby.  Random draws, the clock, socket ids and payloads
are arbitrary. -/
inductive Step : Server → Server → Prop
  | joinGame (rnd : Nat → Nat) (now : Nat) (s : Server) (sid : Nat) (nickname : String) :
      Step s (handleJoinGame rnd now s sid nickname)
  | playCard (rnd : Nat → Nat) (s t : Server) (sid : Nat) (card : Card) :
      handlePlayCard rnd s sid card = some t → Step s t
  | chooseColor (rnd : Nat → Nat) (s t : Server) (sid : Nat) (color : Color) :
      handleChooseColor rnd s sid color = some t → Step s t
  | drawCard (rnd : Nat → Nat) (s t : Server) (sid : Nat) :
      handleDrawCard rnd s sid = some t → Step s t
  | disconnect (s : Server) (sid : Nat) : Step s (handleDisconnect s sid)
  | tick (rnd : Nat → Nat) (s : Server) (li : Nat) : Step s (handleTick rnd s li)

/-- A server state reachable from the start of the process. -/
def Reachable (s : Server) : Prop :=
  Relation.ReflTransGen Step emptyServer s

/-- The test of `findLobby`: `!l.started && l.players.length < 4`. -/
def joinable (l : Lobby) : Bool :=
  !l.started && decide (l.players.length < 4)

/-- A lobby that has started or has finished (its winner is set). -/
def closed (l : Lobby) : Prop :=
  l.started = true ∨ l.winner ≠ none

/-- The turn state is well-formed: the direction is +1 or -1 and
`currentPlayer` is an index into `players`. -/
def TurnOk (l : Lobby) : Prop :=
  (l.direction = 1 ∨ l.direction = -1) ∧ 0 ≤ l.currentPlayer ∧
  l.currentPlayer < l.players.length

/-- The invariant of every lobby of a reachable server. -/
def LobbyOk (l : Lobby) : Prop :=
  TurnOk l ∧ l.players.length ≤ 4 ∧ (closed l → l.players.length = 4)

/-- An open lobby with a fresh deck: not started, every hand empty, nothing
discarded, the 60 cards of `createDeck` with pairwise distinct ids in the draw
pile, and the turn state of `createLobby`. -/
def openFresh (l : Lobby) : Prop :=
  l.started = false ∧ (∀ p ∈ l.players, p.hand = []) ∧ l.discardPile = [] ∧
  l.deck.length = 60 ∧ (l.deck.map Card.id).Nodup ∧ l.currentPlayer = 0 ∧ l.direction = 1

/-! ## More concrete tables -/

def redSkip : Card := ⟨10, some Color.red, none, CardType.skip⟩
def red9 : Card := ⟨9, some Color.red, some 9, CardType.number⟩
def green5 : Card := ⟨18, some Color.green, some 5, CardType.number⟩

/-- It is A's turn, A holds a red skip and a blue 7, the top card is a red 3. -/
def lobbySkip : Lobby :=
  table [[redSkip, blue7], [green1, green2], [blue1], [yellow1]] [yellow9, yellow8] [red3]
    (some red3) 0 false

/-- It is A's turn, A holds a single red skip, the top card is a red 3. -/
def lobbyLastSkip : Lobby :=
  table [[redSkip], [green1, green2], [blue1], [yellow1]] [yellow9, yellow8] [red3]
    (some red3) 0 false

/-- It is A's turn, A holds a single red plus2, the top card is a red 3. -/
def lobbyLastPlus2 : Lobby :=
  table [[redPlus2], [green1, green2], [blue1], [yellow1]] [yellow9, yellow8] [red3]
    (some red3) 0 false

/-- It is A's turn, A holds a red 5 and a blue 7, B holds a wild, a green 1,
a green 5 and a red 9, the top card is a red 3. -/
def lobbyRedFive : Lobby :=
  table [[red5, blue7], [wildA, green1, green5, red9], [blue1], [yellow1]] [yellow9, yellow8]
    [red3] (some red3) 0 false

/-- The table `lobbyPlus2` with one second left on the clock. -/
def lobbyTimeout : Lobby :=
  { lobbyPlus2 with turnTime := 1 }

/-- The server after the sockets 1, 2, 3 have joined an empty server, every
random draw being 0. -/
def joinedThree : Server :=
  handleJoinGame rndZero 7 (handleJoinGame rndZero 7
    (handleJoinGame rndZero 7 emptyServer 1 "A") 2 "B") 3 "C"

/-! ## Invariants -/

/-- A primitive of the handlers leaves the roster size, `started` and `winner`
alone and keeps the turn state well-formed. -/
def Keeps (l t : Lobby) : Prop :=
  t.players.length = l.players.length ∧ t.started = l.started ∧ t.winner = l.winner ∧
  (TurnOk l → TurnOk t)

/-- What every handler other than `joinGame` does to a lobby: the roster size
stays, a lobby is closed afterwards exactly when it was before, and the turn
state stays well-formed. -/
def Evolves (l t : Lobby) : Prop :=
  t.players.length = l.players.length ∧ (closed l ↔ closed t) ∧ (TurnOk l → TurnOk t)

/-- Every lobby of the server satisfies the lobby invariant. -/
def ServerOk (s : Server) : Prop :=
  ∀ l ∈ s.lobbies, LobbyOk l

/-- Every lobby of `s` is still at its index in `t`, and a lobby that was
closed is still closed with the same roster size. -/
def Tracks (s t : Server) : Prop :=
  ∀ (i : Nat) (l : Lobby), s.lobbies[i]? = some l →
    ∃ m, t.lobbies[i]? = some m ∧ (closed l → closed m ∧ m.players.length = l.players.length)

/-- The lobby of `joinedThree`: the fresh lobby after A, B and C have joined. -/
def lobbyOfThree : Lobby :=
  joinLobby rndZero (joinLobby rndZero (joinLobby rndZero (createLobby rndZero 7 0).1 1 "A")
    2 "B") 3 "C"

/-- The lobby of `joinedFour`: the lobby right after D has joined and the
round has started. -/
def lobbyOfFour : Lobby :=
  joinLobby rndZero lobbyOfThree 4 "D"

/-! ## Frames -/

/-- What identifies the seated players, hands left out. -/
def seats (g : Lobby) : List (Nat × String × Bool) :=
  g.players.map (fun p => (p.id, p.nickname, p.isBot))

/-- Everything of a lobby that a draw leaves alone: the seats, the top card
and the turn state. -/
def frame (g : Lobby) :
    List (Nat × String × Bool) × Option Card × Int × Int × Bool × Option String × Bool × Int :=
  (seats g, g.topCard, g.currentPlayer, g.direction, g.started, g.winner, g.awaitingColor,
   g.turnTime)

/-! ## Rule engine theorems -/

/-- C1: for every well-formed card and every top card, `canPlayCard` is true
exactly when the legality rule of the specification holds. -/
theorem canPlayCard_iff_isLegalPlay (card : Card) (topCard : Option Card)
    (hc : card.wellFormed) :
    canPlayCard card topCard = true ↔ isLegalPlay card topCard := by
  cases topCard with
  | none => simp [canPlayCard, isLegalPlay]
  | some top =>
    obtain ⟨cid, ccol, cval, cty⟩ := card
    obtain ⟨tid, tcol, tval, tty⟩ := top
    cases cty <;> cases tty <;> cases ccol <;> cases tcol <;>
      simp_all [canPlayCard, isLegalPlay, Card.wellFormed] <;> exact eq_comm

/-! ## Shuffle -/

theorem set_cons_perm {α : Type} (x b : α) :
    ∀ (xs : List α) (k : Nat), xs[k]? = some b → (b :: xs.set k x).Perm (x :: xs)
  | [], k, h => by simp at h
  | y :: ys, 0, h => by
    simp at h
    subst h
    simpa using List.Perm.swap x y ys
  | y :: ys, k + 1, h => by
    simp at h
    have ih := set_cons_perm x b ys k h
    simp only [List.set_cons_succ]
    exact ((List.Perm.swap y b _).trans (ih.cons y)).trans (List.Perm.swap x y ys)

theorem swapAt_perm {α : Type} : ∀ (l : List α) (i j : Nat), (swapAt l i j).Perm l
  | [], i, j => by simp [swapAt]
  | x :: xs, 0, 0 => by simp [swapAt]
  | x :: xs, 0, j + 1 => by
    unfold swapAt
    cases h : xs[j]? with
    | none => simp [h]
    | some b =>
      simp [h]
      exact set_cons_perm x b xs j h
  | x :: xs, i + 1, 0 => by
    unfold swapAt
    cases h : xs[i]? with
    | none => simp [h]
    | some a =>
      simp [h]
      exact set_cons_perm x a xs i h
  | x :: xs, i + 1, j + 1 => by
    have ih := swapAt_perm xs i j
    unfold swapAt at ih ⊢
    cases hi : xs[i]? with
    | none => simp [hi]
    | some a =>
      cases hj : xs[j]? with
      | none => simp [hi, hj]
      | some b =>
        simp only [hi, hj] at ih
        simpa [hi, hj] using ih

theorem shuffleFrom_perm {α : Type} (rnd : Nat → Nat) :
    ∀ (i : Nat) (deck : List α), (shuffleFrom rnd i deck).Perm deck
  | 0, deck => by simp [shuffleFrom]
  | i + 1, deck => by
    simp only [shuffleFrom]
    exact (shuffleFrom_perm rnd i _).trans (swapAt_perm _ _ _)

theorem shuffle_perm {α : Type} (rnd : Nat → Nat) (deck : List α) :
    (shuffle rnd deck).Perm deck :=
  shuffleFrom_perm rnd _ deck

theorem shuffle_length {α : Type} (rnd : Nat → Nat) (deck : List α) :
    (shuffle rnd deck).length = deck.length :=
  (shuffle_perm rnd deck).length_eq


/-! ## Deck theorems -/

theorem buildDeck_faces (cardId : Nat) :
    ((buildDeck cardId).1.map Card.face).Perm deckComposition := by
  have h : (buildDeck cardId).1.map Card.face = (buildDeck 0).1.map Card.face := by rfl
  rw [h]
  decide

theorem buildDeck_ids (cardId : Nat) :
    (buildDeck cardId).1.map Card.id = List.range' cardId 60 := by rfl

theorem buildDeck_length (cardId : Nat) : (buildDeck cardId).1.length = 60 := by
  have h := congrArg List.length (buildDeck_ids cardId)
  rw [List.length_map, List.length_range'] at h
  exact h

theorem createDeck_fst (rnd : Nat → Nat) (cardId : Nat) :
    (createDeck rnd cardId).1 = shuffle rnd (buildDeck cardId).1 := by
  simp only [createDeck]

theorem createDeck_fst_length (rnd : Nat → Nat) (cardId : Nat) :
    (createDeck rnd cardId).1.length = 60 := by
  rw [createDeck_fst, shuffle_length, buildDeck_length]

/-- C7 (as stated, refuted): the deck `createDeck` returns when every random
draw is 0 does not have 108 cards. -/
theorem fresh_deck_is_not_108 : (createDeck rndZero 0).1.length ≠ 108 := by
  rw [createDeck_fst_length]
  decide

/-- C7 (amended): for every outcome of the shuffle, the list returned by
`createDeck`, and so the draw pile of every newly created lobby, has exactly
60 cards: 4 colours times 13 cards, 4 wild and 4 wild+4. -/
theorem createDeck_length (rnd : Nat → Nat) (now cardId : Nat) :
    (createDeck rnd cardId).1.length = 60 ∧ (createLobby rnd now cardId).1.deck.length = 60 := by
  refine ⟨createDeck_fst_length rnd cardId, ?_⟩
  simp only [createLobby]
  exact createDeck_fst_length rnd cardId

/-- C8: for every sequence of random choices `shuffle` returns a permutation
of its input, and the cards returned by `createDeck` are, up to order, the
fixed composition (per colour one number card of each value 0..9, one skip,
one reverse, one plus2; 4 wild and 4 wild+4 without colour), with pairwise
distinct ids. -/
theorem createDeck_composition (rnd : Nat → Nat) :
    (∀ deck : List Card, (shuffle rnd deck).Perm deck) ∧
    ∀ cardId : Nat,
      ((createDeck rnd cardId).1.map Card.face).Perm deckComposition ∧
      ((createDeck rnd cardId).1.map Card.id).Nodup := by
  refine ⟨fun deck => shuffle_perm rnd deck, fun cardId => ⟨?_, ?_⟩⟩
  · rw [createDeck_fst]
    exact ((shuffle_perm rnd _).map Card.face).trans (buildDeck_faces cardId)
  · have hp : ((createDeck rnd cardId).1.map Card.id).Perm (List.range' cardId 60) := by
      rw [createDeck_fst, ← buildDeck_ids cardId]
      exact (shuffle_perm rnd _).map Card.id
    exact hp.nodup_iff.mpr (List.nodup_range' cardId 60)

/-! ## Handlers evaluated on concrete tables -/

/-- C2: A plays the wild that is A's last card.  The play is accepted and
A's hand is empty, yet the lobby stays started with no winner, also after A
has chosen a colour; a red 5 played as last card from the same table does end
the round. -/
theorem last_wild_leaves_round_open :
    (onPlayCard rndZero [] lobbyLastWild 1 wildA).map
        (fun r => (handAt r.1 0, r.1.started, r.1.winner, r.1.awaitingColor))
      = some ([], true, none, true) ∧
    ((onPlayCard rndZero [] lobbyLastWild 1 wildA).bind
        (fun r => onChooseColor rndZero r.1 Color.red)).map
        (fun g => (handAt g 0, g.started, g.winner, g.currentPlayer))
      = some ([], true, none, 1) ∧
    (onPlayCard rndZero [] lobbyLastRed 1 red5).map
        (fun r => (handAt r.1 0, r.1.started, r.1.winner))
      = some ([], false, some "A") := by
  decide

/-- C3: no colour choice is pending and it is B's turn, yet `chooseColor`
sent by A repaints the top card and moves the turn from B to C. -/
theorem chooseColor_accepted_out_of_turn :
    lobbyResolved.awaitingColor = false ∧ seatIndex lobbyResolved = some 1 ∧
    (handAt lobbyResolved 1 = (seat 2 "B" [green1, green2]).hand) ∧
    (handleChooseColor rndZero ⟨[lobbyResolved], [], 60⟩ 1 Color.blue).map
        (fun s => s.lobbies.map (fun l => (l.topCard, l.currentPlayer)))
      = some [(some { wildA with color := some Color.blue }, 2)] ∧
    lobbyResolved.topCard = some { wildA with color := some Color.red } ∧
    lobbyResolved.currentPlayer = 1 := by
  decide

/-- C4: while A's colour choice is pending, a wild+4 played by A is accepted
(hand, discard pile and top card change) and a draw by A is accepted (hand
and draw pile change, the turn moves on). -/
theorem play_and_draw_accepted_while_awaiting :
    lobbyAwaiting.awaitingColor = true ∧ lobbyAwaiting.started = true ∧
    (onPlayCard rndZero [] lobbyAwaiting 1 wildFourA).map
        (fun r => (handAt r.1 0, r.1.discardPile, r.1.topCard))
      = some ([some red5], [red3, wildA, wildFourA], some wildFourA) ∧
    (onDrawCard rndZero lobbyAwaiting 1).map
        (fun g => (handAt g 0, g.deck, g.currentPlayer))
      = some ([some wildFourA, some red5, some yellow8], [yellow9], 1) := by
  decide

set_option maxRecDepth 100000 in
/-- C5: after four players have joined a fresh lobby, the flipped top card
(the blue 6, id 32) is in none of draw pile, hands and discard pile, which
together hold 59 of the 60 cards; once A has played a card on it, no field of
the lobby refers to it any more. -/
theorem flipped_card_is_lost :
    joinedFour.lobbies.map
        (fun l => ((cardPlaces l).1, (cardPlaces l).2.filter (fun c => c.id == 32),
                   (cardPlaces l).2.length))
      = [(some blue6, [], 59)] ∧
    (handlePlayCard rndZero joinedFour 1 wildFourD).map
        (fun s => s.lobbies.map
          (fun l => ((cardPlaces l).1, (cardPlaces l).2.filter (fun c => c.id == 32),
                     (cardPlaces l).2.length)))
      = some [(some wildFourD, [], 59)] := by
  decide

/-- C6: with an empty draw pile and the discard pile `[red 3, red 5]`, red 5
being the top card, `drawCardFromDeck` returns the top card itself when the
random draw is 1, and leaves the top card in the draw pile when it is 0. -/
theorem recycle_takes_top_card :
    lobbyEmptyDeck.deck = [] ∧ lobbyEmptyDeck.discardPile = [red3, red5] ∧
    lobbyEmptyDeck.topCard = some red5 ∧
    (drawCardFromDeck rndOne lobbyEmptyDeck).1 = some red5 ∧
    (drawCardFromDeck rndZero lobbyEmptyDeck).1 = some red3 ∧
    (drawCardFromDeck rndZero lobbyEmptyDeck).2.deck = [red5] ∧
    (drawCardFromDeck rndZero lobbyEmptyDeck).2.topCard = some red5 ∧
    (drawCardFromDeck rndZero lobbyEmptyDeck).2.discardPile = [] := by
  decide

/-- C9 (as stated, refuted): A at seat 0 plays a legal red plus2 with
direction +1 and keeps a card.  C, two seats ahead, receives nothing; B, one
seat ahead, receives the two cards; the turn lands on C. -/
theorem plus2_two_seats_ahead_gets_nothing :
    canPlayCard redPlus2 lobbyPlus2.topCard = true ∧
    lobbyPlus2.players.length = 4 ∧ lobbyPlus2.currentPlayer = 0 ∧
    lobbyPlus2.direction = 1 ∧
    handAt lobbyPlus2 1 = [some green1, some green2] ∧
    handAt lobbyPlus2 2 = [some blue1] ∧
    (onPlayCard rndZero [] lobbyPlus2 1 redPlus2).map
        (fun r => (handAt r.1 0, handAt r.1 1, handAt r.1 2, r.1.currentPlayer))
      = some ([some blue7], [some green1, some green2, some yellow8, some yellow9],
              [some blue1], 2) := by
  decide

/-! ## Draws and turns -/

theorem seats_length (g : Lobby) : (seats g).length = g.players.length := by
  simp [seats]

theorem frame_players_length {g h : Lobby} (e : frame h = frame g) :
    h.players.length = g.players.length := by
  have := congrArg (fun f => f.1.length) e
  simpa [frame, seats] using this

theorem draw_frame (rnd : Nat → Nat) (g : Lobby) :
    frame (drawCardFromDeck rnd g).2 = frame g ∧
    (drawCardFromDeck rnd g).2.players = g.players := by
  unfold drawCardFromDeck
  by_cases h : g.deck.length = 0 <;> simp [h, frame, seats]

theorem draw_pool (rnd : Nat → Nat) (g : Lobby) :
    pool (drawCardFromDeck rnd g).2 = pool g - 1 ∧
    (1 ≤ pool g → ((drawCardFromDeck rnd g).1).isSome = true) := by
  unfold drawCardFromDeck pool
  by_cases h : g.deck.length = 0
  · have hd : g.deck = [] := List.length_eq_zero.mp h
    simp only [h, if_true, List.length_dropLast, shuffle_length, List.length_nil, Nat.add_zero, hd,
      Nat.zero_add]
    refine ⟨trivial, fun hp => ?_⟩
    have hne : shuffle rnd g.discardPile ≠ [] := by
      intro e
      have := congrArg List.length e
      rw [shuffle_length, List.length_nil] at this
      omega
    cases hs : (shuffle rnd g.discardPile).getLast? with
    | none => exact absurd (List.getLast?_eq_none_iff.mp hs) hne
    | some c => rfl
  · simp only [h, if_false, List.length_dropLast]
    refine ⟨by omega, fun _ => ?_⟩
    have hne : g.deck ≠ [] := fun e => h (by simp [e])
    cases hs : g.deck.getLast? with
    | none => exact absurd (List.getLast?_eq_none_iff.mp hs) hne
    | some c => rfl

theorem handAt_pushHand (g : Lobby) (i : Nat) (x : Option Card) (k : Nat) :
    handAt (pushHand g i x) k =
      if k = i ∧ i < g.players.length then handAt g k ++ [x] else handAt g k := by
  unfold pushHand handAt
  cases h : g.players[i]? with
  | none =>
    have : ¬ i < g.players.length := by
      intro hlt
      simp [List.getElem?_eq_getElem hlt] at h
    simp [this]
  | some p =>
    have hlt : i < g.players.length := by
      by_contra hc
      simp [List.getElem?_eq_none (Nat.le_of_not_lt hc)] at h
    by_cases hk : k = i
    · subst hk
      simp [hlt, h, List.getElem?_set]
    · have hk2 : i ≠ k := fun e => hk e.symm
      simp [hk, hk2, List.getElem?_set]

theorem pushHand_frame (g : Lobby) (i : Nat) (x : Option Card) :
    frame (pushHand g i x) = frame g ∧ (pushHand g i x).deck = g.deck ∧
    (pushHand g i x).discardPile = g.discardPile := by
  unfold pushHand
  cases h : g.players[i]? with
  | none => simp
  | some p =>
    have hlt : i < g.players.length := by
      by_contra hc
      simp [List.getElem?_eq_none (Nat.le_of_not_lt hc)] at h
    have hp : g.players[i] = p := by
      simpa [List.getElem?_eq_getElem hlt] using h
    refine ⟨?_, rfl, rfl⟩
    simp only [frame, seats, Prod.mk.injEq, and_true]
    apply List.ext_getElem?
    intro n
    by_cases hn : n = i
    · subst hn
      simp [List.getElem?_set, hlt, hp]
    · have hn2 : i ≠ n := fun e => hn e.symm
      simp [List.getElem?_set, hn2]

theorem drawInto_spec (rnd : Nat → Nat) (g : Lobby) (i : Nat) :
    frame (drawInto rnd g i) = frame g ∧
    pool (drawInto rnd g i) = pool g - 1 ∧
    ∃ x : Option Card, (1 ≤ pool g → x.isSome = true) ∧
      ∀ k, handAt (drawInto rnd g i) k =
        if k = i ∧ i < g.players.length then handAt g k ++ [x] else handAt g k := by
  unfold drawInto
  obtain ⟨hf, hd, hp⟩ := pushHand_frame (drawCardFromDeck rnd g).2 i (drawCardFromDeck rnd g).1
  obtain ⟨hf2, hpl⟩ := draw_frame rnd g
  obtain ⟨hpool, hsome⟩ := draw_pool rnd g
  refine ⟨hf.trans hf2, ?_, (drawCardFromDeck rnd g).1, hsome, fun k => ?_⟩
  · rw [← hpool]
    simp only [pool, hd, hp]
  · rw [handAt_pushHand]
    simp only [hpl, handAt]

theorem drawMany_spec (rnd : Nat → Nat) :
    ∀ (n : Nat) (g : Lobby) (i : Nat),
      frame (drawMany rnd n g i) = frame g ∧
      pool (drawMany rnd n g i) = pool g - n ∧
      ∃ xs : List (Option Card), xs.length = n ∧ (n ≤ pool g → ∀ x ∈ xs, x.isSome = true) ∧
        ∀ k, handAt (drawMany rnd n g i) k =
          if k = i ∧ i < g.players.length then handAt g k ++ xs else handAt g k
  | 0, g, i => by
    refine ⟨rfl, rfl, [], rfl, fun _ x hx => by simp at hx, fun k => ?_⟩
    simp [drawMany]
  | n + 1, g, i => by
    obtain ⟨hf, hp, x, hx, hh⟩ := drawInto_spec rnd g i
    obtain ⟨hf2, hp2, xs, hlen, hxs, hh2⟩ := drawMany_spec rnd n (drawInto rnd g i) i
    have hlenp := frame_players_length hf
    refine ⟨?_, ?_, x :: xs, by simp [hlen], ?_, fun k => ?_⟩
    · simp only [drawMany]
      exact hf2.trans hf
    · simp only [drawMany]
      rw [hp2, hp]
      omega
    · intro hn y hy
      rcases List.mem_cons.mp hy with rfl | hy
      · exact hx (by omega)
      · exact hxs (by rw [hp]; omega) y hy
    · simp only [drawMany]
      rw [hh2, hh, hlenp]
      by_cases hk : k = i ∧ i < g.players.length
      · simp [hk]
      · simp [hk]

theorem nextTurn_eq (g : Lobby) :
    nextTurn g = { g with currentPlayer := (nextTurn g).currentPlayer } := by
  unfold nextTurn
  split <;> rfl

theorem nextTurn_currentPlayer (g : Lobby) (hpos : 0 < g.players.length)
    (h0 : 0 ≤ g.currentPlayer) (hd : g.direction = 1 ∨ g.direction = -1) :
    (nextTurn g).currentPlayer = (g.currentPlayer + g.direction) % g.players.length := by
  have hP : (0 : Int) < g.players.length := by exact_mod_cast hpos
  unfold nextTurn
  rcases hd with hd | hd
  · rw [if_pos hd, hd]
    exact Int.tmod_eq_emod (by omega) (by omega)
  · have hne : ¬ g.direction = 1 := by omega
    rw [if_neg hne, hd]
    dsimp only
    rw [Int.tmod_eq_emod (by omega) (by omega), Int.add_emod_self]
    rfl

theorem nextTurn_frame (g : Lobby) :
    (nextTurn g).players = g.players ∧ (nextTurn g).deck = g.deck ∧
    (nextTurn g).discardPile = g.discardPile ∧ (nextTurn g).topCard = g.topCard ∧
    (nextTurn g).direction = g.direction ∧ (nextTurn g).started = g.started ∧
    (nextTurn g).winner = g.winner ∧ (nextTurn g).awaitingColor = g.awaitingColor ∧
    (nextTurn g).turnTime = g.turnTime := by
  rw [nextTurn_eq]
  simp

theorem handAt_nextTurn (g : Lobby) (k : Nat) : handAt (nextTurn g) k = handAt g k := by
  simp only [handAt, (nextTurn_frame g).1]

theorem seatIndex_of_range (g : Lobby) (h0 : 0 ≤ g.currentPlayer)
    (h1 : g.currentPlayer < g.players.length) :
    seatIndex g = some g.currentPlayer.toNat := by
  unfold seatIndex
  have : g.currentPlayer.toNat < g.players.length := by omega
  simp [h0, this]

theorem mem_handCards_of_handAt (g : Lobby) (k : Nat) (x : Card) (h : some x ∈ handAt g k) :
    x ∈ handCards g := by
  unfold handAt at h
  cases hp : g.players[k]? with
  | none => simp [hp] at h
  | some p =>
    simp only [hp] at h
    unfold handCards
    rw [List.mem_flatMap]
    refine ⟨p, List.getElem?_mem hp, ?_⟩
    rw [List.mem_filterMap]
    exact ⟨some x, h, rfl⟩

theorem handAt_paintCard (g : Lobby) (cid : Nat) (col : Color) (k : Nat)
    (hfresh : ∀ x ∈ handCards g, x.id ≠ cid) :
    handAt (paintCard g cid col) k = handAt g k := by
  have key : handAt (paintCard g cid col) k =
      (handAt g k).map (Option.map (Card.paint cid col)) := by
    unfold handAt paintCard
    cases hp : g.players[k]? <;> simp [hp]
  rw [key]
  conv => rhs; rw [← List.map_id (handAt g k)]
  apply List.map_congr_left
  intro x hx
  cases x with
  | none => rfl
  | some y =>
    have := hfresh y (mem_handCards_of_handAt g k y hx)
    simp [Card.paint, this]

theorem handAt_clock (h : Lobby) (t : Int) (k : Nat) :
    handAt { h with turnTime := t } k = handAt h k := rfl

theorem pool_nextTurn (g : Lobby) : pool (nextTurn g) = pool g := by
  simp only [pool, (nextTurn_frame g).2.1, (nextTurn_frame g).2.2.1]

/-- The penalty sequence shared by plus2 and wild+4: advance the turn, let the
new current player draw `n` times, advance the turn again. -/
theorem penalty_spec (rnd : Nat → Nat) (n : Nat) (g : Lobby) (hpos : 0 < g.players.length)
    (h0 : 0 ≤ g.currentPlayer) (hdir : g.direction = 1 ∨ g.direction = -1) :
    ∃ i : Nat, seatIndex (nextTurn g) = some i ∧
      (nextTurn (drawMany rnd n (nextTurn g) i)).currentPlayer =
        (g.currentPlayer + 2 * g.direction) % g.players.length ∧
      frame (drawMany rnd n (nextTurn g) i) = frame (nextTurn g) ∧
      ∃ xs : List (Option Card), xs.length = n ∧ (n ≤ pool g → ∀ x ∈ xs, x.isSome = true) ∧
        ∀ k : Nat, handAt (nextTurn (drawMany rnd n (nextTurn g) i)) k =
          if (k : Int) = (g.currentPlayer + g.direction) % g.players.length
          then handAt g k ++ xs else handAt g k := by
  have hposI : (0 : Int) < g.players.length := by exact_mod_cast hpos
  have nt_cur := nextTurn_currentPlayer g hpos h0 hdir
  have hb0 : 0 ≤ (nextTurn g).currentPlayer := by
    rw [nt_cur]; exact Int.emod_nonneg _ (by omega)
  have hb1 : (nextTurn g).currentPlayer < (nextTurn g).players.length := by
    rw [nt_cur, (nextTurn_frame g).1]; exact Int.emod_lt_of_pos _ hposI
  obtain ⟨hf, -, xs, hlen, hxs, hh⟩ :=
    drawMany_spec rnd n (nextTurn g) (nextTurn g).currentPlayer.toNat
  have hfr := hf
  simp only [frame, Prod.mk.injEq] at hfr
  obtain ⟨-, -, hcur2, hdir2, -, -, -, -⟩ := hfr
  have hlen2 := frame_players_length hf
  refine ⟨_, seatIndex_of_range (nextTurn g) hb0 hb1, ?_, hf, xs, hlen, ?_, fun k => ?_⟩
  · rw [nextTurn_currentPlayer _ (by rw [hlen2, (nextTurn_frame g).1]; exact hpos)
      (by rw [hcur2]; exact hb0) (by rw [hdir2, (nextTurn_frame g).2.2.2.2.1]; exact hdir)]
    rw [hcur2, hdir2, hlen2, (nextTurn_frame g).2.2.2.2.1, (nextTurn_frame g).1, nt_cur,
      Int.emod_add_emod]
    have e : g.currentPlayer + g.direction + g.direction = g.currentPlayer + 2 * g.direction := by
      omega
    rw [e]
  · intro hn
    exact hxs (by rw [pool_nextTurn]; exact hn)
  · rw [handAt_nextTurn, hh, handAt_nextTurn]
    have hiff : (k = (nextTurn g).currentPlayer.toNat ∧
        (nextTurn g).currentPlayer.toNat < (nextTurn g).players.length) ↔
        (k : Int) = (g.currentPlayer + g.direction) % g.players.length := by
      rw [← nt_cur]
      constructor
      · rintro ⟨rfl, -⟩
        exact Int.toNat_of_nonneg hb0
      · intro hk
        have : (nextTurn g).currentPlayer.toNat = k := by omega
        exact ⟨this.symm, by omega⟩
    by_cases hk : (k : Int) = (g.currentPlayer + g.direction) % g.players.length
    · rw [if_pos (hiff.mpr hk), if_pos hk]
    · rw [if_neg (fun h => hk (hiff.mp h)), if_neg hk]

/-- The lobby right after `topCard.color = color; awaitingColor = false`. -/
theorem paint_spec (lobby : Lobby) (top : Card) (c : Color) (htop : lobby.topCard = some top)
    (hfresh : ∀ x ∈ handCards lobby, x.id ≠ top.id) (g1 : Lobby)
    (hg1 : g1 = { paintCard lobby top.id c with awaitingColor := false }) :
    g1.players.length = lobby.players.length ∧ g1.currentPlayer = lobby.currentPlayer ∧
    g1.direction = lobby.direction ∧ g1.topCard = some { top with color := some c } ∧
    g1.awaitingColor = false ∧ pool g1 = pool lobby ∧ ∀ k, handAt g1 k = handAt lobby k := by
  subst hg1
  refine ⟨by simp [paintCard], rfl, rfl, by simp [paintCard, htop, Card.paint], rfl,
    by simp [paintCard, pool], fun k => ?_⟩
  rw [← handAt_paintCard lobby top.id c k hfresh]
  rfl

theorem onChooseColor_eq (rnd : Nat → Nat) (lobby : Lobby) (top : Card) (c : Color)
    (hstarted : lobby.started = true) (htop : lobby.topCard = some top)
    (hwild : top.type = CardType.wildPlus4 ∨ top.type = CardType.wild) (g1 : Lobby)
    (hg1 : g1 = { paintCard lobby top.id c with awaitingColor := false }) :
    onChooseColor rnd lobby c =
      if top.type = CardType.wildPlus4 then
        match seatIndex (nextTurn g1) with
        | none => none
        | some i => some { nextTurn (drawMany rnd 4 (nextTurn g1) i) with turnTime := 30 }
      else some { nextTurn g1 with turnTime := 30 } := by
  have hisw : top.isWild = true := by
    rcases hwild with h | h <;> simp [Card.isWild, h]
  subst hg1
  unfold onChooseColor
  simp only [hstarted, htop, hisw, if_true]
  rfl


theorem handAt_eq_hand (g : Lobby) (k : Nat) (p : Player) (h : g.players[k]? = some p) :
    handAt g k = p.hand := by
  simp only [handAt, h]

/-- The lobby right after the played card has moved from the hand at seat `a`
to the discard pile and become the top card. -/
theorem moveToDiscard_spec (lobby : Lobby) (a idx : Nat) (actor : Player) (played : Card)
    (hactor : lobby.players[a]? = some actor) :
    (moveToDiscard lobby a actor idx played).players.length = lobby.players.length ∧
    (moveToDiscard lobby a actor idx played).currentPlayer = lobby.currentPlayer ∧
    (moveToDiscard lobby a actor idx played).direction = lobby.direction ∧
    pool (moveToDiscard lobby a actor idx played) = pool lobby + 1 ∧
    ∀ k, handAt (moveToDiscard lobby a actor idx played) k =
      if k = a then (handAt lobby a).eraseIdx idx else handAt lobby k := by
  have hlt : a < lobby.players.length := by
    by_contra hc
    simp [List.getElem?_eq_none (Nat.le_of_not_lt hc)] at hactor
  refine ⟨by simp [moveToDiscard], rfl, rfl, by simp [moveToDiscard, pool]; omega, fun k => ?_⟩
  by_cases hk : k = a
  · subst hk
    simp [moveToDiscard, handAt, hactor, List.getElem?_set, hlt]
  · have hk2 : a ≠ k := fun e => hk e.symm
    simp [moveToDiscard, handAt, hk, hk2, List.getElem?_set]

theorem onPlayCard_eq_playCard (rnd : Nat → Nat) (lb : Leaderboard) (lobby : Lobby) (sid a : Nat)
    (card : Card) (actor : Player)
    (hstarted : lobby.started = true) (hcur : lobby.currentPlayer = a)
    (hactor : lobby.players[a]? = some actor) (hsid : actor.id = sid)
    (hfirst : lobby.players.findIdx? (fun p => p.id == sid) = some a) :
    onPlayCard rnd lb lobby sid card = playCard rnd lb lobby a card := by
  have hlt : a < lobby.players.length := by
    by_contra hc
    simp [List.getElem?_eq_none (Nat.le_of_not_lt hc)] at hactor
  have hseat : seatIndex lobby = some a := by
    rw [seatIndex_of_range lobby (by omega) (by omega), hcur]
    simp
  unfold onPlayCard
  simp [hstarted, hfirst, hseat, hactor, hsid]

theorem playCard_plus2_eq (rnd : Nat → Nat) (lb : Leaderboard) (lobby : Lobby) (a idx : Nat)
    (card played : Card) (actor : Player)
    (hactor : lobby.players[a]? = some actor)
    (hfind : findIndexById actor.hand card.id = some (some idx))
    (hplayed : actor.hand[idx]? = some (some played))
    (hlegal : canPlayCard played lobby.topCard = true)
    (hplus2 : played.type = CardType.plus2) :
    playCard rnd lb lobby a card =
      match seatIndex (nextTurn (moveToDiscard lobby a actor idx played)) with
      | none => none
      | some i =>
        winCheck lb (drawMany rnd 2 (nextTurn (moveToDiscard lobby a actor idx played)) i) a := by
  unfold playCard
  simp only [hactor, hfind, hplayed, hlegal, Card.isWild, hplus2, applyEffect]
  cases h : seatIndex (nextTurn (moveToDiscard lobby a actor idx played)) <;> simp

/-- C9 (amended): in a started 4-player lobby, when the current player at seat
`a` plays a legal plus2 and still holds a card afterwards, the play is
accepted, the player one seat ahead of the actor in the current direction
receives exactly two extra hand entries `x`, `y` (two cards whenever the draw
pile and the discard pile together hold a card before the play), the actor
loses the played card, no other hand changes, and the turn lands two seats
ahead of the actor, on the player after the penalised one. -/
theorem plus2_penalises_next_player (rnd : Nat → Nat) (lb : Leaderboard) (lobby : Lobby)
    (sid a idx : Nat) (card played : Card) (actor : Player)
    (hstarted : lobby.started = true) (hfour : lobby.players.length = 4)
    (hcur : lobby.currentPlayer = a)
    (hdir : lobby.direction = 1 ∨ lobby.direction = -1)
    (hactor : lobby.players[a]? = some actor) (hsid : actor.id = sid)
    (hfirst : lobby.players.findIdx? (fun p => p.id == sid) = some a)
    (hfind : findIndexById actor.hand card.id = some (some idx))
    (hplayed : actor.hand[idx]? = some (some played))
    (hlegal : canPlayCard played lobby.topCard = true)
    (hplus2 : played.type = CardType.plus2)
    (hleft : 2 ≤ actor.hand.length) :
    ∃ (g : Lobby) (x y : Option Card),
      onPlayCard rnd lb lobby sid card = some (g, lb) ∧
      g.currentPlayer = ((a : Int) + 2 * lobby.direction) % 4 ∧
      (∀ k : Nat, handAt g k =
        if (k : Int) = ((a : Int) + lobby.direction) % 4 then handAt lobby k ++ [x, y]
        else if k = a then actor.hand.eraseIdx idx else handAt lobby k) ∧
      (1 ≤ pool lobby → x.isSome = true ∧ y.isSome = true) := by
  have hlt : a < 4 := by
    rw [← hfour]
    by_contra hc
    simp [List.getElem?_eq_none (Nat.le_of_not_lt hc)] at hactor
  have hidx : idx < actor.hand.length := by
    by_contra hc
    simp [List.getElem?_eq_none (Nat.le_of_not_lt hc)] at hplayed
  rw [onPlayCard_eq_playCard rnd lb lobby sid a card actor hstarted hcur hactor hsid hfirst,
    playCard_plus2_eq rnd lb lobby a idx card played actor hactor hfind hplayed hlegal hplus2]
  obtain ⟨g1_players, g1_cur, g1_dir, g1_pool, g1_hand⟩ :=
    moveToDiscard_spec lobby a idx actor played hactor
  rw [hfour] at g1_players
  rw [hcur] at g1_cur
  obtain ⟨i, hseat, hcur2, hf, xs, hlen, hxs, hh⟩ :=
    penalty_spec rnd 2 (moveToDiscard lobby a actor idx played) (by rw [g1_players]; decide)
      (by rw [g1_cur]; omega) (by rw [g1_dir]; exact hdir)
  have h4 : ((4 : Nat) : Int) = 4 := rfl
  rw [g1_cur, g1_dir, g1_players, h4] at hcur2
  have hh2 : ∀ k : Nat,
      handAt (nextTurn (drawMany rnd 2 (nextTurn (moveToDiscard lobby a actor idx played)) i)) k =
        if (k : Int) = ((a : Int) + lobby.direction) % 4 then handAt lobby k ++ xs
        else if k = a then actor.hand.eraseIdx idx else handAt lobby k := by
    intro k
    rw [hh k, g1_cur, g1_dir, g1_players, h4, g1_hand, handAt_eq_hand lobby a actor hactor]
    by_cases hk : (k : Int) = ((a : Int) + lobby.direction) % 4
    · have hka : k ≠ a := by
        rintro rfl
        rcases hdir with hd | hd <;> rw [hd] at hk <;> omega
      rw [if_pos hk, if_pos hk, if_neg hka]
    · rw [if_neg hk, if_neg hk]
  have hlen_dm := frame_players_length hf
  rw [(nextTurn_frame _).1, g1_players] at hlen_dm
  obtain ⟨p2, hp2⟩ : ∃ p2,
      (drawMany rnd 2 (nextTurn (moveToDiscard lobby a actor idx played)) i).players[a]? = some p2 :=
    ⟨_, List.getElem?_eq_getElem (by rw [hlen_dm]; exact hlt)⟩
  have hp2hand : p2.hand = actor.hand.eraseIdx idx := by
    have e := hh2 a
    rw [handAt_nextTurn, handAt_eq_hand _ a p2 hp2] at e
    have hne : ¬ ((a : Int) = ((a : Int) + lobby.direction) % 4) := by
      rcases hdir with hd | hd <;> rw [hd] <;> omega
    rw [if_neg hne, if_pos rfl] at e
    exact e
  have hp2len : ¬ p2.hand.length = 0 := by
    rw [hp2hand, List.length_eraseIdx, if_pos hidx]
    omega
  rw [hseat]
  match xs, hlen, hxs, hh2 with
  | [x, y], _, hxs, hh2 =>
    refine ⟨{ nextTurn (drawMany rnd 2 (nextTurn (moveToDiscard lobby a actor idx played)) i)
                with turnTime := 30 }, x, y, ?_, ?_, ?_, ?_⟩
    · simp only [winCheck, hp2, if_neg hp2len]
    · dsimp only
      exact hcur2
    · intro k
      rw [handAt_clock]
      exact hh2 k
    · intro hp
      have hall := hxs (by rw [g1_pool]; omega)
      exact ⟨hall x (by simp), hall y (by simp)⟩

/-- C10: in a started lobby whose top card is a wild+4 or wild held by no
hand, with the turn at seat `a`, choosing the colour `c` is accepted, sets
`topCard.color = c` and `awaitingColor = false`; for a wild+4 with at least 4
cards in draw pile plus discard pile the player at `(a + direction) mod P`
receives exactly 4 cards, every other hand is unchanged and the turn lands on
`(a + 2 * direction) mod P`; for a plain wild no hand changes and the turn
lands on `(a + direction) mod P`. -/
theorem chooseColor_resolves_wild (rnd : Nat → Nat) (lobby : Lobby) (top : Card) (c : Color)
    (a : Int)
    (hstarted : lobby.started = true)
    (htop : lobby.topCard = some top)
    (hwild : top.type = CardType.wildPlus4 ∨ top.type = CardType.wild)
    (hcur : lobby.currentPlayer = a) (ha0 : 0 ≤ a) (haP : a < lobby.players.length)
    (hdir : lobby.direction = 1 ∨ lobby.direction = -1)
    (hfresh : ∀ x ∈ handCards lobby, x.id ≠ top.id) :
    ∃ g, onChooseColor rnd lobby c = some g ∧
      g.topCard = some { top with color := some c } ∧ g.awaitingColor = false ∧
      (top.type = CardType.wildPlus4 → 4 ≤ pool lobby →
        g.currentPlayer = (a + 2 * lobby.direction) % lobby.players.length ∧
        ∃ c1 c2 c3 c4 : Card, ∀ k : Nat, handAt g k =
          if (k : Int) = (a + lobby.direction) % lobby.players.length
          then handAt lobby k ++ [some c1, some c2, some c3, some c4] else handAt lobby k) ∧
      (top.type = CardType.wild →
        g.currentPlayer = (a + lobby.direction) % lobby.players.length ∧
        ∀ k : Nat, handAt g k = handAt lobby k) := by
  have hposI : (0 : Int) < lobby.players.length := by omega
  have hpos : 0 < lobby.players.length := by exact_mod_cast hposI
  obtain ⟨g1, hg1⟩ : ∃ g1 : Lobby, g1 = { paintCard lobby top.id c with awaitingColor := false } :=
    ⟨_, rfl⟩
  obtain ⟨g1_players, g1_cur, g1_dir, g1_top, g1_aw, g1_pool, g1_hand⟩ :=
    paint_spec lobby top c htop hfresh g1 hg1
  rw [onChooseColor_eq rnd lobby top c hstarted htop hwild g1 hg1]
  rw [hcur] at g1_cur
  by_cases hty : top.type = CardType.wildPlus4
  · obtain ⟨i, hseat, hcur2, hf, xs, hlen, hxs, hh⟩ :=
      penalty_spec rnd 4 g1 (by rw [g1_players]; exact hpos) (by rw [g1_cur]; exact ha0)
        (by rw [g1_dir]; exact hdir)
    rw [if_pos hty, hseat]
    simp only [frame, Prod.mk.injEq] at hf
    obtain ⟨-, htop2, -, -, -, -, haw2, -⟩ := hf
    refine ⟨_, rfl, ?_, ?_, ?_, ?_⟩
    · dsimp only
      rw [(nextTurn_frame _).2.2.2.1, htop2, (nextTurn_frame _).2.2.2.1, g1_top]
    · dsimp only
      rw [(nextTurn_frame _).2.2.2.2.2.2.2.1, haw2, (nextTurn_frame _).2.2.2.2.2.2.2.1, g1_aw]
    · intro _ hpool
      constructor
      · dsimp only
        rw [hcur2, g1_cur, g1_dir, g1_players]
      · have hall := hxs (by rw [g1_pool]; exact hpool)
        match xs, hlen, hall, hh with
        | [x1, x2, x3, x4], _, hall, hh =>
          obtain ⟨c1, rfl⟩ := Option.isSome_iff_exists.mp (hall x1 (by simp))
          obtain ⟨c2, rfl⟩ := Option.isSome_iff_exists.mp (hall x2 (by simp))
          obtain ⟨c3, rfl⟩ := Option.isSome_iff_exists.mp (hall x3 (by simp))
          obtain ⟨c4, rfl⟩ := Option.isSome_iff_exists.mp (hall x4 (by simp))
          refine ⟨c1, c2, c3, c4, fun k => ?_⟩
          have e := hh k
          rw [g1_cur, g1_dir, g1_players, g1_hand] at e
          rw [handAt_clock]
          exact e
    · intro hw
      rw [hty] at hw
      exact absurd hw (by decide)
  · rw [if_neg hty]
    refine ⟨_, rfl, ?_, ?_, ?_, ?_⟩
    · dsimp only
      rw [(nextTurn_frame _).2.2.2.1, g1_top]
    · dsimp only
      rw [(nextTurn_frame _).2.2.2.2.2.2.2.1, g1_aw]
    · intro h
      exact absurd h hty
    · intro _
      constructor
      · dsimp only
        rw [nextTurn_currentPlayer g1 (by rw [g1_players]; exact hpos) (by rw [g1_cur]; exact ha0)
          (by rw [g1_dir]; exact hdir), g1_cur, g1_dir, g1_players]
      · intro k
        rw [handAt_clock, handAt_nextTurn, g1_hand]

/-! ## Draw and turn arithmetic -/

theorem draw_mem (rnd : Nat → Nat) (g : Lobby) (c : Card)
    (h : (drawCardFromDeck rnd g).1 = some c) : c ∈ g.deck ∨ c ∈ g.discardPile := by
  unfold drawCardFromDeck at h
  by_cases hd : g.deck.length = 0
  · simp only [hd, if_true] at h
    right
    exact (shuffle_perm rnd g.discardPile).mem_iff.mp (List.mem_of_getLast?_eq_some h)
  · simp only [hd, if_false] at h
    left
    exact List.mem_of_getLast?_eq_some h

/-- C19: whenever the draw pile and the discard pile together hold at least
one card (so in particular more than one), `drawCardFromDeck` returns a card
of those piles, never an absent value, and the combined size of the two piles
decreases by exactly 1. -/
theorem drawCardFromDeck_returns_card (rnd : Nat → Nat) (game : Lobby) (h : 1 ≤ pool game) :
    ∃ c : Card, (drawCardFromDeck rnd game).1 = some c ∧
      (c ∈ game.deck ∨ c ∈ game.discardPile) ∧
      pool (drawCardFromDeck rnd game).2 + 1 = pool game := by
  obtain ⟨hp, hs⟩ := draw_pool rnd game
  obtain ⟨c, hc⟩ := Option.isSome_iff_exists.mp (hs h)
  exact ⟨c, hc, draw_mem rnd game c hc, by rw [hp]; omega⟩

theorem nextTurn_iterate_spec (g : Lobby) (hpos : 0 < g.players.length)
    (hd : g.direction = 1 ∨ g.direction = -1) (h0 : 0 ≤ g.currentPlayer)
    (h1 : g.currentPlayer < g.players.length) :
    ∀ N : Nat, (nextTurn^[N] g).players = g.players ∧ (nextTurn^[N] g).direction = g.direction ∧
      (nextTurn^[N] g).currentPlayer = (g.currentPlayer + N * g.direction) % g.players.length
  | 0 => by
    refine ⟨rfl, rfl, ?_⟩
    simp only [Function.iterate_zero, id_eq, Nat.cast_zero, zero_mul, add_zero]
    exact (Int.emod_eq_of_lt h0 h1).symm
  | N + 1 => by
    obtain ⟨hp, hdir, hc⟩ := nextTurn_iterate_spec g hpos hd h0 h1 N
    have hposI : (0 : Int) < g.players.length := by exact_mod_cast hpos
    rw [Function.iterate_succ_apply']
    refine ⟨by rw [(nextTurn_frame _).1, hp], by rw [(nextTurn_frame _).2.2.2.2.1, hdir], ?_⟩
    rw [nextTurn_currentPlayer _ (by rw [hp]; exact hpos)
      (by rw [hc]; exact Int.emod_nonneg _ (by omega)) (by rw [hdir]; exact hd),
      hc, hdir, hp, Int.emod_add_emod]
    congr 1
    push_cast
    ring

/-- C14: with `P >= 1` players and `currentPlayer = 0`, `N` successive calls
of `nextTurn` leave `currentPlayer = N mod P` when the direction is +1 and
`(-N) mod P`, a residue in `0..P-1`, when it is -1; `nextTurn` changes no
field other than `currentPlayer`. -/
theorem nextTurn_arithmetic (game : Lobby) (N : Nat) (hpos : 1 ≤ game.players.length)
    (h0 : game.currentPlayer = 0) :
    (game.direction = 1 →
      (nextTurn^[N] game).currentPlayer = (N : Int) % game.players.length) ∧
    (game.direction = -1 →
      (nextTurn^[N] game).currentPlayer = (-(N : Int)) % game.players.length ∧
      0 ≤ (-(N : Int)) % game.players.length ∧
      (-(N : Int)) % game.players.length < game.players.length) ∧
    nextTurn game = { game with currentPlayer := (nextTurn game).currentPlayer } := by
  have hposI : (0 : Int) < game.players.length := by exact_mod_cast hpos
  refine ⟨fun hd => ?_, fun hd => ⟨?_, Int.emod_nonneg _ (by omega), Int.emod_lt_of_pos _ hposI⟩,
    nextTurn_eq game⟩
  · have h := (nextTurn_iterate_spec game hpos (Or.inl hd) (by omega) (by omega) N).2.2
    rw [h, h0, hd]
    simp
  · have h := (nextTurn_iterate_spec game hpos (Or.inr hd) (by omega) (by omega) N).2.2
    rw [h, h0, hd]
    simp


/-! ## Skip and winning plays -/

theorem nextTurn_range (g : Lobby) (hpos : 0 < g.players.length)
    (h0 : 0 ≤ g.currentPlayer) (hd : g.direction = 1 ∨ g.direction = -1) :
    0 ≤ (nextTurn g).currentPlayer ∧ (nextTurn g).currentPlayer < g.players.length := by
  have hposI : (0 : Int) < g.players.length := by exact_mod_cast hpos
  rw [nextTurn_currentPlayer g hpos h0 hd]
  exact ⟨Int.emod_nonneg _ (by omega), Int.emod_lt_of_pos _ hposI⟩

theorem nextTurn_twice (g : Lobby) (hpos : 0 < g.players.length)
    (h0 : 0 ≤ g.currentPlayer) (hd : g.direction = 1 ∨ g.direction = -1) :
    (nextTurn (nextTurn g)).currentPlayer =
      (g.currentPlayer + 2 * g.direction) % g.players.length := by
  have hr := nextTurn_range g hpos h0 hd
  rw [nextTurn_currentPlayer _ (by rw [(nextTurn_frame g).1]; exact hpos) hr.1
    (by rw [(nextTurn_frame g).2.2.2.2.1]; exact hd),
    (nextTurn_frame g).2.2.2.2.1, (nextTurn_frame g).1, nextTurn_currentPlayer g hpos h0 hd,
    Int.emod_add_emod]
  have e : g.currentPlayer + g.direction + g.direction = g.currentPlayer + 2 * g.direction := by
    omega
  rw [e]

theorem getElem?_lt {α : Type} {l : List α} {i : Nat} {x : α} (h : l[i]? = some x) :
    i < l.length := by
  by_contra hc
  simp [List.getElem?_eq_none (Nat.le_of_not_lt hc)] at h

theorem moveToDiscard_player (lobby : Lobby) (a idx : Nat) (actor : Player) (played : Card)
    (hactor : lobby.players[a]? = some actor) :
    (moveToDiscard lobby a actor idx played).players[a]? =
      some { actor with hand := actor.hand.eraseIdx idx } := by
  have hlt := getElem?_lt hactor
  simp [moveToDiscard, List.getElem?_set, hlt]

theorem playCard_effect_eq (rnd : Nat → Nat) (lb : Leaderboard) (lobby : Lobby) (a idx : Nat)
    (card played : Card) (actor : Player)
    (hactor : lobby.players[a]? = some actor)
    (hfind : findIndexById actor.hand card.id = some (some idx))
    (hplayed : actor.hand[idx]? = some (some played))
    (hlegal : canPlayCard played lobby.topCard = true)
    (hnw : played.isWild = false) :
    playCard rnd lb lobby a card =
      match applyEffect rnd (moveToDiscard lobby a actor idx played) played.type with
      | none => none
      | some g2 => winCheck lb g2 a := by
  unfold playCard
  simp only [hactor, hfind, hplayed, hlegal, hnw]
  cases applyEffect rnd (moveToDiscard lobby a actor idx played) played.type <;> rfl

theorem nextTurn_player (g : Lobby) (a : Nat) : (nextTurn g).players[a]? = g.players[a]? := by
  rw [(nextTurn_frame g).1]

/-- C11: in a started lobby with `P` players and direction `d`, when the
current player at seat `a` plays a legal skip and still holds a card
afterwards, the play is accepted, the turn lands on `(a + 2 * d) mod P`, the
direction is unchanged, the actor loses the played card and no other hand
changes. -/
theorem skip_skips_next_player (rnd : Nat → Nat) (lb : Leaderboard) (lobby : Lobby)
    (sid a idx : Nat) (card played : Card) (actor : Player)
    (hstarted : lobby.started = true)
    (hcur : lobby.currentPlayer = a)
    (hdir : lobby.direction = 1 ∨ lobby.direction = -1)
    (hactor : lobby.players[a]? = some actor) (hsid : actor.id = sid)
    (hfirst : lobby.players.findIdx? (fun p => p.id == sid) = some a)
    (hfind : findIndexById actor.hand card.id = some (some idx))
    (hplayed : actor.hand[idx]? = some (some played))
    (hlegal : canPlayCard played lobby.topCard = true)
    (hskip : played.type = CardType.skip)
    (hleft : 2 ≤ actor.hand.length) :
    ∃ g : Lobby, onPlayCard rnd lb lobby sid card = some (g, lb) ∧
      g.currentPlayer = ((a : Int) + 2 * lobby.direction) % lobby.players.length ∧
      g.direction = lobby.direction ∧
      handAt g a = actor.hand.eraseIdx idx ∧
      ∀ k : Nat, k ≠ a → handAt g k = handAt lobby k := by
  have hlt := getElem?_lt hactor
  have hidx := getElem?_lt hplayed
  have hnw : played.isWild = false := by simp [Card.isWild, hskip]
  obtain ⟨g1_players, g1_cur, g1_dir, -, g1_hand⟩ :=
    moveToDiscard_spec lobby a idx actor played hactor
  rw [hcur] at g1_cur
  have hp := moveToDiscard_player lobby a idx actor played hactor
  have hlen : ¬ (actor.hand.eraseIdx idx).length = 0 := by
    rw [List.length_eraseIdx, if_pos hidx]
    omega
  rw [onPlayCard_eq_playCard rnd lb lobby sid a card actor hstarted hcur hactor hsid hfirst,
    playCard_effect_eq rnd lb lobby a idx card played actor hactor hfind hplayed hlegal hnw,
    hskip]
  refine ⟨{ nextTurn (nextTurn (moveToDiscard lobby a actor idx played)) with turnTime := 30 },
    ?_, ?_, ?_, ?_, ?_⟩
  · simp only [applyEffect, winCheck, nextTurn_player, hp, if_neg hlen]
  · dsimp only
    rw [nextTurn_twice _ (by rw [g1_players]; omega) (by rw [g1_cur]; omega)
      (by rw [g1_dir]; exact hdir), g1_cur, g1_dir, g1_players]
  · dsimp only
    rw [(nextTurn_frame _).2.2.2.2.1, (nextTurn_frame _).2.2.2.2.1, g1_dir]
  · rw [handAt_clock, handAt_nextTurn, handAt_nextTurn, g1_hand, if_pos rfl,
      handAt_eq_hand lobby a actor hactor]
  · intro k hk
    rw [handAt_clock, handAt_nextTurn, handAt_nextTurn, g1_hand, if_neg hk]

theorem seat_of_seats {g h : Lobby} (e : seats h = seats g) (a : Nat) (p : Player)
    (hp : g.players[a]? = some p) :
    ∃ q, h.players[a]? = some q ∧ q.id = p.id ∧ q.nickname = p.nickname ∧ q.isBot = p.isBot := by
  have e2 := congrArg (fun l => l[a]?) e
  simp only [seats, List.getElem?_map, hp, Option.map_some'] at e2
  cases hq : h.players[a]? with
  | none => simp [hq] at e2
  | some q =>
    simp only [hq, Option.map_some', Option.some.injEq, Prod.mk.injEq] at e2
    exact ⟨q, rfl, e2.1, e2.2.1, e2.2.2⟩

theorem next_seat_ne (a P : Nat) (d : Int) (hP : 2 ≤ P) (ha : a < P) (hd : d = 1 ∨ d = -1) :
    ¬ ((a : Int) = ((a : Int) + d) % (P : Int)) := by
  rcases hd with hd | hd
  · subst hd
    by_cases h : a + 1 < P
    · rw [Int.emod_eq_of_lt (by omega) (by omega)]
      omega
    · have e : (a : Int) + 1 = (P : Int) := by omega
      rw [e, Int.emod_self]
      omega
  · subst hd
    by_cases h : 1 ≤ a
    · rw [Int.emod_eq_of_lt (by omega) (by omega)]
      omega
    · have e : (a : Int) + -1 = -1 := by omega
      have h5 : ((-1 : Int) + (P : Int)) % (P : Int) = -1 + (P : Int) :=
        Int.emod_eq_of_lt (by omega) (by omega)
      rw [Int.add_emod_self] at h5
      rw [e, h5]
      omega

theorem handAt_result (h : Lobby) (w : Option String) (s : Bool) (k : Nat) :
    handAt { h with winner := w, started := s } k = handAt h k := rfl

/-- C12 (amended): in a started lobby with at least two players, when the
current player at seat `a` plays a legal skip or plus2 that is the only card
in hand, the round ends (winner is the actor, started is false, the actor's
hand is empty, a non-bot winner gains one win), the card's own effect has
been applied and nothing after it: the turn stands one position ahead, at
`(a + d) mod P`; after a skip no other hand changes, after a plus2 the player
at `(a + d) mod P` holds two more entries and no other hand changes. -/
theorem winning_card_effect_applies (rnd : Nat → Nat) (lb : Leaderboard) (lobby : Lobby)
    (sid a : Nat) (card played : Card) (actor : Player)
    (hstarted : lobby.started = true)
    (hcur : lobby.currentPlayer = a)
    (hdir : lobby.direction = 1 ∨ lobby.direction = -1)
    (hsize : 2 ≤ lobby.players.length)
    (hactor : lobby.players[a]? = some actor) (hsid : actor.id = sid)
    (hfirst : lobby.players.findIdx? (fun p => p.id == sid) = some a)
    (hhand : actor.hand = [some played])
    (hid : played.id = card.id)
    (hlegal : canPlayCard played lobby.topCard = true)
    (htype : played.type = CardType.skip ∨ played.type = CardType.plus2) :
    ∃ g : Lobby,
      onPlayCard rnd lb lobby sid card =
        some (g, if actor.isBot = false then lbIncrement lb actor.nickname else lb) ∧
      g.winner = some actor.nickname ∧ g.started = false ∧
      g.currentPlayer = ((a : Int) + lobby.direction) % lobby.players.length ∧
      handAt g a = [] ∧
      (played.type = CardType.skip → ∀ k : Nat, k ≠ a → handAt g k = handAt lobby k) ∧
      (played.type = CardType.plus2 → ∃ x y : Option Card, ∀ k : Nat, k ≠ a →
        handAt g k =
          if (k : Int) = ((a : Int) + lobby.direction) % lobby.players.length
          then handAt lobby k ++ [x, y] else handAt lobby k) := by
  have hlt := getElem?_lt hactor
  have hposI : (0 : Int) < lobby.players.length := by omega
  have hfind : findIndexById actor.hand card.id = some (some 0) := by
    rw [hhand]
    simp [findIndexById, hid]
  have hplayed : actor.hand[0]? = some (some played) := by rw [hhand]; rfl
  have hnw : played.isWild = false := by
    rcases htype with h | h <;> simp [Card.isWild, h]
  obtain ⟨g1_players, g1_cur, g1_dir, -, g1_hand⟩ :=
    moveToDiscard_spec lobby a 0 actor played hactor
  rw [hcur] at g1_cur
  have hp := moveToDiscard_player lobby a 0 actor played hactor
  have herase : actor.hand.eraseIdx 0 = [] := by rw [hhand]; rfl
  have hnt := nextTurn_currentPlayer (moveToDiscard lobby a actor 0 played)
    (by rw [g1_players]; omega) (by rw [g1_cur]; omega) (by rw [g1_dir]; exact hdir)
  rw [g1_cur, g1_dir, g1_players] at hnt
  rw [onPlayCard_eq_playCard rnd lb lobby sid a card actor hstarted hcur hactor hsid hfirst,
    playCard_effect_eq rnd lb lobby a 0 card played actor hactor hfind hplayed hlegal hnw]
  rcases htype with hty | hty
  · -- skip
    refine ⟨{ nextTurn (moveToDiscard lobby a actor 0 played) with
        winner := some actor.nickname, started := false }, ?_, rfl, rfl, ?_, ?_, ?_, ?_⟩
    · simp only [hty, applyEffect, winCheck, nextTurn_player, hp, herase, List.length_nil,
        if_true]
    · exact hnt
    · rw [handAt_result, handAt_nextTurn, g1_hand, if_pos rfl,
        handAt_eq_hand lobby a actor hactor, herase]
    · intro _ k hk
      rw [handAt_result, handAt_nextTurn, g1_hand, if_neg hk]
    · intro h
      rw [hty] at h
      exact absurd h (by decide)
  · -- plus2
    obtain ⟨i, hseat, -, hf, xs, hlen, -, hh⟩ :=
      penalty_spec rnd 2 (moveToDiscard lobby a actor 0 played) (by rw [g1_players]; omega)
        (by rw [g1_cur]; omega) (by rw [g1_dir]; exact hdir)
    rw [g1_cur, g1_dir, g1_players] at hh
    have hfr := hf
    simp only [frame, Prod.mk.injEq] at hfr
    obtain ⟨hseats, -, hcur2, -, -, -, -, -⟩ := hfr
    have hne : ¬ ((a : Int) = ((a : Int) + lobby.direction) % lobby.players.length) :=
      next_seat_ne a lobby.players.length lobby.direction hsize hlt hdir
    obtain ⟨q, hq, -, hqn, hqb⟩ := seat_of_seats hseats a
      { actor with hand := actor.hand.eraseIdx 0 } (by rw [nextTurn_player]; exact hp)
    have hqhand : q.hand = [] := by
      have e := hh a
      rw [handAt_nextTurn, handAt_eq_hand _ a q hq, if_neg hne, g1_hand, if_pos rfl,
        handAt_eq_hand lobby a actor hactor, herase] at e
      exact e
    match xs, hlen, hh with
    | [x, y], _, hh =>
      refine ⟨{ drawMany rnd 2 (nextTurn (moveToDiscard lobby a actor 0 played)) i with
          winner := some actor.nickname, started := false }, ?_, rfl, rfl, ?_, ?_, ?_, ?_⟩
      · simp only [hty, applyEffect, hseat, winCheck, hq, hqhand, List.length_nil, if_true, hqn,
          hqb]
      · dsimp only
        rw [hcur2]
        exact hnt
      · rw [handAt_result, handAt_eq_hand _ a q hq, hqhand]
      · intro h
        rw [hty] at h
        exact absurd h (by decide)
      · intro _
        refine ⟨x, y, fun k hk => ?_⟩
        have e2 := hh k
        rw [handAt_nextTurn, g1_hand, if_neg hk] at e2
        rw [handAt_result, e2]


/-! ## Rejected plays and the timer -/

theorem findIndexById_spec : ∀ (hand : List (Option Card)) (cid : Nat),
    (∀ x ∈ hand, x.isSome = true) →
    (findIndexById hand cid = some none ∧ ∀ c, some c ∈ hand → c.id ≠ cid) ∨
    (∃ idx c, findIndexById hand cid = some (some idx) ∧ hand[idx]? = some (some c) ∧
      c.id = cid)
  | [], cid, _ => Or.inl ⟨rfl, fun c hc => by simp at hc⟩
  | none :: rest, cid, h => by
    have := h none (by simp)
    simp at this
  | some c :: rest, cid, h => by
    by_cases hc : c.id = cid
    · exact Or.inr ⟨0, c, by simp [findIndexById, hc], by simp, hc⟩
    · rcases findIndexById_spec rest cid (fun x hx => h x (List.mem_cons_of_mem _ hx)) with
        ⟨h1, h2⟩ | ⟨idx, d, h1, h2, h3⟩
      · refine Or.inl ⟨by simp [findIndexById, hc, h1], fun d hd => ?_⟩
        rcases List.mem_cons.mp hd with e | e
        · cases e
          exact hc
        · exact h2 d e
      · exact Or.inr ⟨idx + 1, d, by simp [findIndexById, hc, h1], by simpa using h2, h3⟩

theorem playCard_payload (rnd : Nat → Nat) (lb : Leaderboard) (game : Lobby) (pidx : Nat)
    (card other : Card) (h : other.id = card.id) :
    playCard rnd lb game pidx other = playCard rnd lb game pidx card := by
  unfold playCard
  rw [h]

/-- C13: in a started lobby whose current player's hand holds cards only,
when the current player sends a payload such that every hand card with the
payload's id (there may be none) fails `canPlayCard` against the top card,
the handler returns and leaves the whole lobby and the leaderboard
unchanged; and two payloads with the same id are handled alike in every
state, whatever their other fields. -/
theorem illegal_play_is_rejected (rnd : Nat → Nat) (lb : Leaderboard) (lobby : Lobby)
    (sid a : Nat) (card : Card) (actor : Player)
    (hstarted : lobby.started = true)
    (hcur : lobby.currentPlayer = a)
    (hactor : lobby.players[a]? = some actor) (hsid : actor.id = sid)
    (hfirst : lobby.players.findIdx? (fun p => p.id == sid) = some a)
    (hcards : ∀ x ∈ actor.hand, x.isSome = true)
    (hbad : ∀ c : Card, some c ∈ actor.hand → c.id = card.id →
      canPlayCard c lobby.topCard = false) :
    onPlayCard rnd lb lobby sid card = some (lobby, lb) ∧
    ∀ other : Card, other.id = card.id →
      ∀ (r : Nat → Nat) (b : Leaderboard) (l : Lobby) (s : Nat),
        onPlayCard r b l s other = onPlayCard r b l s card := by
  constructor
  · rw [onPlayCard_eq_playCard rnd lb lobby sid a card actor hstarted hcur hactor hsid hfirst]
    unfold playCard
    rcases findIndexById_spec actor.hand card.id hcards with ⟨h1, -⟩ | ⟨idx, c, h1, h2, h3⟩
    · simp only [hactor, h1]
    · have hmem : some c ∈ actor.hand := List.getElem?_mem h2
      simp only [hactor, h1, h2, hbad c hmem h3, if_true]
  · intro other ho r b l s
    unfold onPlayCard
    simp only [playCard_payload r b l _ card other ho]

/-- C16: a tick on a lobby that is not started changes nothing; a tick with
`turnTime > 1` on a started lobby only decrements `turnTime`; a tick with
`turnTime = 1` on a started lobby with a non-empty pool and a well-formed turn
state appends exactly one card to the current player's hand, leaves every
other hand unchanged, advances `currentPlayer` by one position in the current
direction and resets `turnTime` to 30. -/
theorem tick_spec (rnd : Nat → Nat) (lobby : Lobby) :
    (lobby.started = false → tick rnd lobby = lobby) ∧
    (lobby.started = true → 1 < lobby.turnTime →
      tick rnd lobby = { lobby with turnTime := lobby.turnTime - 1 }) ∧
    (lobby.started = true → lobby.turnTime = 1 → 1 ≤ pool lobby →
      0 ≤ lobby.currentPlayer → lobby.currentPlayer < lobby.players.length →
      (lobby.direction = 1 ∨ lobby.direction = -1) →
      ∃ c : Card,
        (∀ k : Nat, handAt (tick rnd lobby) k =
          if (k : Int) = lobby.currentPlayer then handAt lobby k ++ [some c]
          else handAt lobby k) ∧
        (tick rnd lobby).currentPlayer =
          (lobby.currentPlayer + lobby.direction) % lobby.players.length ∧
        (tick rnd lobby).direction = lobby.direction ∧
        (tick rnd lobby).turnTime = 30) := by
  refine ⟨fun h => ?_, fun h ht => ?_, fun h ht hp h0 h1 hd => ?_⟩
  · simp [tick, h]
  · have : ¬ lobby.turnTime - 1 ≤ 0 := by omega
    simp [tick, h, this]
  · obtain ⟨g1, hg1⟩ : ∃ g1 : Lobby, g1 = { lobby with turnTime := lobby.turnTime - 1 } :=
      ⟨_, rfl⟩
    have hseat : seatIndex g1 = some lobby.currentPlayer.toNat := by
      rw [hg1]
      exact seatIndex_of_range _ h0 h1
    have htick : tick rnd lobby =
        { nextTurn (drawInto rnd g1 lobby.currentPlayer.toNat) with turnTime := 30 } := by
      have hle : lobby.turnTime - 1 ≤ 0 := by omega
      have hs : ¬ lobby.started = false := by rw [h]; decide
      unfold tick
      rw [if_neg hs]
      dsimp only
      rw [if_pos hle, ← hg1, hseat]
    obtain ⟨hf, -, x, hx, hh⟩ := drawInto_spec rnd g1 lobby.currentPlayer.toNat
    have hpool : pool g1 = pool lobby := by rw [hg1]; rfl
    obtain ⟨c, rfl⟩ := Option.isSome_iff_exists.mp (hx (by rw [hpool]; exact hp))
    have hfr := hf
    simp only [frame, Prod.mk.injEq] at hfr
    obtain ⟨-, -, hcur2, hdir2, -, -, -, -⟩ := hfr
    have hlen := frame_players_length hf
    have g1p : g1.players = lobby.players := by rw [hg1]
    have g1c : g1.currentPlayer = lobby.currentPlayer := by rw [hg1]
    have g1d : g1.direction = lobby.direction := by rw [hg1]
    rw [g1p] at hlen
    rw [g1c] at hcur2
    rw [g1d] at hdir2
    have hposN : 0 < lobby.players.length := by omega
    refine ⟨c, fun k => ?_, ?_, ?_, ?_⟩
    · rw [htick, handAt_clock, handAt_nextTurn, hh, g1p]
      have e : ∀ k, handAt g1 k = handAt lobby k := fun k => by rw [hg1]; rfl
      rw [e]
      have hiff : (k = lobby.currentPlayer.toNat ∧
          lobby.currentPlayer.toNat < lobby.players.length) ↔ (k : Int) = lobby.currentPlayer := by
        constructor
        · rintro ⟨rfl, -⟩
          exact Int.toNat_of_nonneg h0
        · intro hk
          exact ⟨by omega, by omega⟩
      by_cases hk : (k : Int) = lobby.currentPlayer
      · rw [if_pos (hiff.mpr hk), if_pos hk]
      · rw [if_neg (fun h => hk (hiff.mp h)), if_neg hk]
    · rw [htick]
      dsimp only
      rw [nextTurn_currentPlayer _ (by rw [hlen]; exact hposN) (by rw [hcur2]; exact h0)
        (by rw [hdir2]; exact hd), hcur2, hdir2, hlen]
    · rw [htick]
      dsimp only
      rw [(nextTurn_frame _).2.2.2.2.1, hdir2]
    · rw [htick]


/-! ## Views -/

/-- C18 (as stated, refuted): after A plays a red 5 on a red 3 with direction
+1 in a 4-player lobby, the turn is B's and B's view marks playable the wild
card B holds, a card that is neither red nor a number 5. -/
theorem wild_marked_playable :
    ((onPlayCard rndZero [] lobbyRedFive 1 red5).bind
        (fun r => (viewFor r.2 r.1 r.1 (seat 2 "B" [wildA, green1, green5, red9])).map
          (fun v => (v.currentPlayer, v.hand.map (fun h => (h.card.map Card.id, h.playable))))))
      = some (1, [(some 52, true), (some 14, false), (some 18, true), (some 9, true)]) ∧
    handAt lobbyRedFive 1 = (seat 2 "B" [wildA, green1, green5, red9]).hand ∧
    wildA.color ≠ some Color.red ∧ wildA.type ≠ CardType.number := by
  decide

theorem playableFlag_true (lobby : Lobby) (p : Player) (c : Card)
    (h : playableFlag lobby p (some c) = some true) :
    lobby.awaitingColor = false ∧ lobby.started = true ∧
    (∃ cur, 0 ≤ lobby.currentPlayer ∧ lobby.players[lobby.currentPlayer.toNat]? = some cur ∧
      p.id = cur.id) ∧
    canPlayCard c lobby.topCard = true := by
  unfold playableFlag at h
  by_cases ha : lobby.awaitingColor = true
  · simp [ha] at h
  · by_cases hs : lobby.started = false
    · simp [ha, hs] at h
    · simp only [ha, hs, if_false] at h
      unfold seatIndex at h
      by_cases hr : 0 ≤ lobby.currentPlayer ∧ lobby.currentPlayer.toNat < lobby.players.length
      · simp only [hr, and_self, if_true] at h
        cases hc : lobby.players[lobby.currentPlayer.toNat]? with
        | none => simp [hc] at h
        | some cur =>
          simp only [hc] at h
          by_cases hid : p.id = cur.id
          · refine ⟨by simpa using ha, by simpa using hs, ⟨cur, hr.1, rfl, hid⟩, ?_⟩
            cases ht : lobby.topCard with
            | none => rfl
            | some top => simpa [hid, ht] using h
          · simp [hid] at h
      · simp [hr] at h

theorem playableFlag_started (lobby : Lobby) (p cur : Player) (c : Card)
    (hs : lobby.started = true) (h0 : 0 ≤ lobby.currentPlayer)
    (hc : lobby.players[lobby.currentPlayer.toNat]? = some cur) :
    playableFlag lobby p (some c) =
      some (decide (p.id = cur.id ∧ lobby.awaitingColor = false ∧
        canPlayCard c lobby.topCard = true)) := by
  have hr : 0 ≤ lobby.currentPlayer ∧ lobby.currentPlayer.toNat < lobby.players.length :=
    ⟨h0, getElem?_lt hc⟩
  unfold playableFlag seatIndex
  by_cases ha : lobby.awaitingColor = true
  · simp [ha]
  · have ha2 : lobby.awaitingColor = false := by simpa using ha
    by_cases hid : p.id = cur.id
    · cases ht : lobby.topCard with
      | none => simp [ha2, hs, hr, hc, hid, canPlayCard]
      | some top => simp [ha2, hs, hr, hc, hid]
    · simp [ha2, hs, hr, hc, hid]

theorem handView_entries (lobby : Lobby) (p : Player) :
    ∀ (hand : List (Option Card)) (vs : List HandView), handView lobby p hand = some vs →
      vs.map (fun v => v.card) = hand ∧ ∀ v ∈ vs, playableFlag lobby p v.card = some v.playable
  | [], vs, h => by
    simp only [handView, Option.some.injEq] at h
    subst h
    simp
  | c :: rest, vs, h => by
    simp only [handView] at h
    cases hf : playableFlag lobby p c with
    | none => simp [hf] at h
    | some b =>
      cases hr : handView lobby p rest with
      | none => simp [hf, hr] at h
      | some ws =>
        simp only [hf, hr, Option.some.injEq] at h
        subst h
        obtain ⟨h1, h2⟩ := handView_entries lobby p rest ws hr
        refine ⟨by simp [h1], fun v hv => ?_⟩
        rcases List.mem_cons.mp hv with e | e
        · subst e
          exact hf
        · exact h2 v e

theorem canPlay_on_red_five (c top : Card) (ht : top.type = CardType.number)
    (hcol : top.color = some Color.red) (hv : top.value = some 5) :
    canPlayCard c (some top) =
      decide (c.color = some Color.red ∨ (c.type = CardType.number ∧ c.value = some 5) ∨
        c.type = CardType.wild ∨ c.type = CardType.wildPlus4) := by
  obtain ⟨cid, ccol, cval, cty⟩ := c
  obtain ⟨tid, tcol, tval, tty⟩ := top
  simp only at ht hcol hv
  subst ht hcol hv
  cases cty <;> cases ccol <;> simp [canPlayCard]

theorem canPlay_same_color (c top : Card) (col : Color) (hw : c.isWild = false)
    (hc : c.color = some col) (ht : top.color = some col) :
    canPlayCard c (some top) = true := by
  obtain ⟨cid, ccol, cval, cty⟩ := c
  obtain ⟨tid, tcol, tval, tty⟩ := top
  simp only at hc ht
  subst hc ht
  cases cty <;> cases tty <;> simp_all [canPlayCard, Card.isWild]

/-- The lobby after an accepted play of a card without effect that leaves the
actor with a card in hand. -/
theorem plain_play_eq (rnd : Nat → Nat) (lb : Leaderboard) (lobby : Lobby)
    (sid a idx : Nat) (card played : Card) (actor : Player)
    (hstarted : lobby.started = true)
    (hcur : lobby.currentPlayer = a)
    (hactor : lobby.players[a]? = some actor) (hsid : actor.id = sid)
    (hfirst : lobby.players.findIdx? (fun p => p.id == sid) = some a)
    (hfind : findIndexById actor.hand card.id = some (some idx))
    (hplayed : actor.hand[idx]? = some (some played))
    (hlegal : canPlayCard played lobby.topCard = true)
    (hnum : played.type = CardType.number)
    (hleft : 2 ≤ actor.hand.length) :
    onPlayCard rnd lb lobby sid card =
      some ({ nextTurn (moveToDiscard lobby a actor idx played) with turnTime := 30 }, lb) := by
  have hidx := getElem?_lt hplayed
  have hnw : played.isWild = false := by simp [Card.isWild, hnum]
  have hp := moveToDiscard_player lobby a idx actor played hactor
  have hlen : ¬ (actor.hand.eraseIdx idx).length = 0 := by
    rw [List.length_eraseIdx, if_pos hidx]
    omega
  rw [onPlayCard_eq_playCard rnd lb lobby sid a card actor hstarted hcur hactor hsid hfirst,
    playCard_effect_eq rnd lb lobby a idx card played actor hactor hfind hplayed hlegal hnw,
    hnum]
  simp only [applyEffect, winCheck, hp, if_neg hlen]

/-- C18 (amended): a hand card's `playable` flag is true only if the game is
started, not awaiting a colour, the player's socket id is that of the current
player and `canPlayCard` accepts the card; in a started lobby it is true
exactly then; the view's hand lists the hand slots with these flags; and
after A plays a red 5 on a red top card with direction +1 in a 4-player
lobby, keeping a card, the turn is B's and B's flags are true exactly for the
cards that are red, or a number 5, or a wild or wild+4. -/
theorem playable_flag_spec :
    (∀ (l : Lobby) (p : Player) (c : Card), playableFlag l p (some c) = some true →
      l.awaitingColor = false ∧ l.started = true ∧
      (∃ cur, 0 ≤ l.currentPlayer ∧ l.players[l.currentPlayer.toNat]? = some cur ∧
        p.id = cur.id) ∧
      canPlayCard c l.topCard = true) ∧
    (∀ (l : Lobby) (p cur : Player) (c : Card), l.started = true → 0 ≤ l.currentPlayer →
      l.players[l.currentPlayer.toNat]? = some cur →
      playableFlag l p (some c) =
        some (decide (p.id = cur.id ∧ l.awaitingColor = false ∧
          canPlayCard c l.topCard = true))) ∧
    (∀ (l : Lobby) (p : Player) (hand : List (Option Card)) (vs : List HandView),
      handView l p hand = some vs →
      vs.map (fun v => v.card) = hand ∧
      ∀ v ∈ vs, playableFlag l p v.card = some v.playable) ∧
    (∀ (rnd : Nat → Nat) (lb : Leaderboard) (lobby : Lobby) (sid idx : Nat)
      (card played top : Card) (actor b : Player),
      lobby.started = true → lobby.players.length = 4 → lobby.currentPlayer = 0 →
      lobby.direction = 1 → lobby.awaitingColor = false →
      lobby.topCard = some top → top.color = some Color.red →
      lobby.players[0]? = some actor → actor.id = sid →
      lobby.players.findIdx? (fun p => p.id == sid) = some 0 →
      findIndexById actor.hand card.id = some (some idx) →
      actor.hand[idx]? = some (some played) →
      played.type = CardType.number → played.color = some Color.red →
      played.value = some 5 → 2 ≤ actor.hand.length →
      lobby.players[1]? = some b →
      ∃ g : Lobby, onPlayCard rnd lb lobby sid card = some (g, lb) ∧
        g.currentPlayer = 1 ∧ g.players[1]? = some b ∧
        ∀ c : Card, playableFlag g b (some c) =
          some (decide (c.color = some Color.red ∨
            (c.type = CardType.number ∧ c.value = some 5) ∨
            c.type = CardType.wild ∨ c.type = CardType.wildPlus4))) := by
  refine ⟨playableFlag_true, playableFlag_started, handView_entries, ?_⟩
  intro rnd lb lobby sid idx card played top actor b hstarted hfour hcur hdir haw htop htopc
    hactor hsid hfirst hfind hplayed hnum hcol hval hleft hb
  have hnw : played.isWild = false := by simp [Card.isWild, hnum]
  have hlegal : canPlayCard played lobby.topCard = true := by
    rw [htop]
    exact canPlay_same_color played top Color.red hnw hcol htopc
  have hcur0 : lobby.currentPlayer = ((0 : Nat) : Int) := by rw [hcur]; rfl
  have hplay := plain_play_eq rnd lb lobby sid 0 idx card played actor hstarted hcur0 hactor hsid
    hfirst hfind hplayed hlegal hnum hleft
  obtain ⟨g1_players, g1_cur, g1_dir, -, -⟩ := moveToDiscard_spec lobby 0 idx actor played hactor
  have hg1b : (moveToDiscard lobby 0 actor idx played).players[1]? = some b := by
    simp [moveToDiscard, List.getElem?_set, hb]
  have hcp : (nextTurn (moveToDiscard lobby 0 actor idx played)).currentPlayer = 1 := by
    rw [nextTurn_currentPlayer _ (by rw [g1_players, hfour]; decide) (by rw [g1_cur, hcur])
      (by rw [g1_dir, hdir]; exact Or.inl rfl), g1_cur, g1_dir, g1_players, hcur, hdir, hfour]
    decide
  refine ⟨_, hplay, hcp, by rw [← hg1b]; exact nextTurn_player _ 1, fun c => ?_⟩
  rw [playableFlag_started _ b b c
    (by dsimp only; rw [(nextTurn_frame _).2.2.2.2.2.1]; exact hstarted)
    (by dsimp only; rw [hcp]; decide)
    (by dsimp only; rw [hcp]; rw [nextTurn_player]; exact hg1b)]
  have htop2 : ({ nextTurn (moveToDiscard lobby 0 actor idx played) with turnTime := 30 } :
      Lobby).topCard = some played := by
    dsimp only
    rw [(nextTurn_frame _).2.2.2.1]
    rfl
  have haw2 : ({ nextTurn (moveToDiscard lobby 0 actor idx played) with turnTime := 30 } :
      Lobby).awaitingColor = false := by
    dsimp only
    rw [(nextTurn_frame _).2.2.2.2.2.2.2.1]
    exact haw
  rw [htop2, haw2, canPlay_on_red_five c played hnum hcol hval]
  simp


/-! ## The deal -/

theorem draw_pop (rnd : Nat → Nat) (g : Lobby) (c : Card) (s : List Card)
    (h : g.deck.reverse = c :: s) :
    (drawCardFromDeck rnd g).1 = some c ∧ (drawCardFromDeck rnd g).2.deck.reverse = s ∧
    (drawCardFromDeck rnd g).2.discardPile = g.discardPile := by
  have hd : g.deck = s.reverse ++ [c] := by
    have := congrArg List.reverse h
    simpa using this
  have hne : ¬ g.deck.length = 0 := by rw [hd]; simp
  unfold drawCardFromDeck
  simp only [hne, if_false]
  rw [hd]
  simp

theorem drawInto_pop (rnd : Nat → Nat) (g : Lobby) (i : Nat) (c : Card) (s : List Card)
    (h : g.deck.reverse = c :: s) :
    frame (drawInto rnd g i) = frame g ∧ (drawInto rnd g i).deck.reverse = s ∧
    (drawInto rnd g i).discardPile = g.discardPile ∧
    ∀ k, handAt (drawInto rnd g i) k =
      if k = i ∧ i < g.players.length then handAt g k ++ [some c] else handAt g k := by
  obtain ⟨h1, h2, h3⟩ := draw_pop rnd g c s h
  obtain ⟨hf, hd, hp⟩ := pushHand_frame (drawCardFromDeck rnd g).2 i (drawCardFromDeck rnd g).1
  obtain ⟨hf2, hpl⟩ := draw_frame rnd g
  unfold drawInto
  refine ⟨hf.trans hf2, by rw [hd, h2], by rw [hp, h3], fun k => ?_⟩
  rw [handAt_pushHand, h1]
  simp only [hpl, handAt]

theorem drawMany_pop (rnd : Nat → Nat) :
    ∀ (n : Nat) (g : Lobby) (i : Nat) (s : List Card), g.deck.reverse = s → n ≤ s.length →
      frame (drawMany rnd n g i) = frame g ∧ (drawMany rnd n g i).deck.reverse = s.drop n ∧
      (drawMany rnd n g i).discardPile = g.discardPile ∧
      ∀ k, handAt (drawMany rnd n g i) k =
        if k = i ∧ i < g.players.length then handAt g k ++ (s.take n).map some
        else handAt g k
  | 0, g, i, s, h, _ => by
    refine ⟨rfl, by simpa [drawMany] using h, rfl, fun k => ?_⟩
    simp [drawMany]
  | n + 1, g, i, s, h, hn => by
    match s, h, hn with
    | c :: s, h, hn =>
      obtain ⟨hf, hd, hp, hh⟩ := drawInto_pop rnd g i c s h
      obtain ⟨hf2, hd2, hp2, hh2⟩ :=
        drawMany_pop rnd n (drawInto rnd g i) i s hd (by simpa using hn)
      have hlen := frame_players_length hf
      refine ⟨?_, ?_, ?_, fun k => ?_⟩
      · simp only [drawMany]
        exact hf2.trans hf
      · simp only [drawMany]
        rw [hd2]
        rfl
      · simp only [drawMany]
        rw [hp2, hp]
      · simp only [drawMany]
        rw [hh2, hh, hlen]
        by_cases hk : k = i ∧ i < g.players.length
        · simp [hk]
        · simp [hk]

theorem dealFrom_zero (rnd : Nat → Nat) (i : Nat) (g : Lobby) : dealFrom rnd 0 i g = g := rfl

theorem dealFrom_succ (rnd : Nat → Nat) (n i : Nat) (g : Lobby) :
    dealFrom rnd (n + 1) i g = dealFrom rnd n (i + 1) (drawMany rnd 7 g i) := rfl

theorem dealFrom_pop (rnd : Nat → Nat) (n : Nat) :
    ∀ (i : Nat) (g : Lobby) (s : List Card), g.deck.reverse = s → 7 * n ≤ s.length →
      i + n ≤ g.players.length →
      frame (dealFrom rnd n i g) = frame g ∧ (dealFrom rnd n i g).deck.reverse = s.drop (7 * n) ∧
      (dealFrom rnd n i g).discardPile = g.discardPile ∧
      ∀ k, handAt (dealFrom rnd n i g) k =
        if i ≤ k ∧ k < i + n then handAt g k ++ ((s.drop (7 * (k - i))).take 7).map some
        else handAt g k := by
  induction n with
  | zero =>
    intro i g s h _ _
    rw [dealFrom_zero]
    refine ⟨rfl, by simpa using h, rfl, fun k => ?_⟩
    have : ¬ (i ≤ k ∧ k < i + 0) := by omega
    rw [if_neg this]
  | succ n ih =>
    intro i g s h hs hi
    obtain ⟨hf, hd, hp, hh⟩ := drawMany_pop rnd 7 g i s h (by omega)
    have hlen := frame_players_length hf
    obtain ⟨hf2, hd2, hp2, hh2⟩ := ih (i + 1) (drawMany rnd 7 g i) (s.drop 7) hd
      (by rw [List.length_drop]; omega) (by rw [hlen]; omega)
    rw [dealFrom_succ]
    refine ⟨hf2.trans hf, ?_, by rw [hp2, hp], fun k => ?_⟩
    · rw [hd2, List.drop_drop]
      rw [show 7 + 7 * n = 7 * (n + 1) by omega]
    · rw [hh2, hh]
      by_cases hk1 : k = i
      · subst hk1
        have h1 : ¬ (k + 1 ≤ k ∧ k < k + 1 + n) := by omega
        have h2 : k = k ∧ k < g.players.length := ⟨rfl, by omega⟩
        have h3 : k ≤ k ∧ k < k + (n + 1) := by omega
        rw [if_neg h1, if_pos h2, if_pos h3]
        simp
      · have h2 : ¬ (k = i ∧ i < g.players.length) := fun h => hk1 h.1
        rw [if_neg h2]
        by_cases hk2 : i + 1 ≤ k ∧ k < i + 1 + n
        · have h3 : i ≤ k ∧ k < i + (n + 1) := by omega
          rw [if_pos hk2, if_pos h3, List.drop_drop]
          rw [show 7 + 7 * (k - (i + 1)) = 7 * (k - i) by omega]
        · have h3 : ¬ (i ≤ k ∧ k < i + (n + 1)) := by omega
          rw [if_neg hk2, if_neg h3]

theorem handAt_nil_of_hands (g : Lobby) (h : ∀ p ∈ g.players, p.hand = []) (k : Nat) :
    handAt g k = [] := by
  unfold handAt
  cases hp : g.players[k]? with
  | none => rfl
  | some p => exact h p (List.getElem?_mem hp)

/-- The lobby right after `lobby.players.push(player)`. -/
theorem seated_spec (lobby : Lobby) (sid : Nat) (nickname : String) (g1 : Lobby)
    (hg1 : g1 = { lobby with players := lobby.players ++
      [{ id := sid, nickname := nickname, hand := [], isBot := false }] })
    (hh : ∀ p ∈ lobby.players, p.hand = []) :
    g1.players.length = lobby.players.length + 1 ∧
    seats g1 = seats lobby ++ [(sid, nickname, false)] ∧
    (∀ k, handAt g1 k = []) ∧ g1.deck = lobby.deck ∧ g1.discardPile = lobby.discardPile ∧
    g1.started = lobby.started ∧ g1.currentPlayer = lobby.currentPlayer ∧
    g1.direction = lobby.direction := by
  subst hg1
  refine ⟨by simp, by simp [seats], fun k => ?_, rfl, rfl, rfl, rfl, rfl⟩
  apply handAt_nil_of_hands
  intro p hp
  rcases List.mem_append.mp hp with h | h
  · exact hh p h
  · simp only [List.mem_singleton] at h
    rw [h]

theorem joinLobby_eq (rnd : Nat → Nat) (lobby : Lobby) (sid : Nat) (nickname : String)
    (g1 : Lobby)
    (hg1 : g1 = { lobby with players := lobby.players ++
      [{ id := sid, nickname := nickname, hand := [], isBot := false }] }) :
    joinLobby rnd lobby sid nickname =
      if g1.players.length = 4 then
        { (drawCardFromDeck rnd (dealFrom rnd g1.players.length 0 { g1 with started := true })).2
            with
          topCard :=
            (drawCardFromDeck rnd (dealFrom rnd g1.players.length 0
              { g1 with started := true })).1,
          turnTime := 30 }
      else g1 := by
  subst hg1
  rfl

theorem seats_flip (h : Lobby) (t : Option Card) (n : Int) :
    seats { h with topCard := t, turnTime := n } = seats h := rfl

theorem handAt_flip (h : Lobby) (t : Option Card) (n : Int) (k : Nat) :
    handAt { h with topCard := t, turnTime := n } k = handAt h k := rfl

/-- C15: for an open lobby with a fresh deck, a join that brings the roster
to fewer than 4 players seats the caller, leaves `started = false`, every hand
empty and the deck untouched; the join that seats the 4th player sets
`started = true`, gives seat `k` the cards 7k..7k+6 in popping order (the end
of the deck first), so 7 cards each with seat 0 served first, sets `topCard`
to the next card popped (the 29th), leaves the other 31 cards in the draw
pile, the 29 removed cards having pairwise distinct ids, and sets
`turnTime = 30` with `currentPlayer = 0` and `direction = 1`. -/
theorem joinGame_start (rnd : Nat → Nat) (lobby : Lobby) (sid : Nat) (nickname : String)
    (h : openFresh lobby) :
    (lobby.players.length + 1 < 4 →
      (joinLobby rnd lobby sid nickname).started = false ∧
      seats (joinLobby rnd lobby sid nickname) = seats lobby ++ [(sid, nickname, false)] ∧
      (∀ k : Nat, handAt (joinLobby rnd lobby sid nickname) k = []) ∧
      (joinLobby rnd lobby sid nickname).deck = lobby.deck) ∧
    (lobby.players.length + 1 = 4 →
      (joinLobby rnd lobby sid nickname).started = true ∧
      seats (joinLobby rnd lobby sid nickname) = seats lobby ++ [(sid, nickname, false)] ∧
      (∀ k : Nat, k < 4 → handAt (joinLobby rnd lobby sid nickname) k =
        ((lobby.deck.reverse.drop (7 * k)).take 7).map some ∧
        (handAt (joinLobby rnd lobby sid nickname) k).length = 7) ∧
      (joinLobby rnd lobby sid nickname).topCard = lobby.deck.reverse[28]? ∧
      (∃ top : Card, (joinLobby rnd lobby sid nickname).topCard = some top) ∧
      (joinLobby rnd lobby sid nickname).deck.reverse = lobby.deck.reverse.drop 29 ∧
      (joinLobby rnd lobby sid nickname).deck.length = 31 ∧
      ((lobby.deck.reverse.take 29).map Card.id).Nodup ∧
      (joinLobby rnd lobby sid nickname).turnTime = 30 ∧
      (joinLobby rnd lobby sid nickname).currentPlayer = 0 ∧
      (joinLobby rnd lobby sid nickname).direction = 1) := by
  obtain ⟨hst, hhands, hdisc, hlen, hnd, hcp, hdir⟩ := h
  obtain ⟨g1, hg1⟩ : ∃ g1 : Lobby, g1 = { lobby with players := lobby.players ++
      [{ id := sid, nickname := nickname, hand := [], isBot := false }] } := ⟨_, rfl⟩
  obtain ⟨g1_len, g1_seats, g1_hand, g1_deck, g1_disc, g1_st, g1_cp, g1_dir⟩ :=
    seated_spec lobby sid nickname g1 hg1 hhands
  rw [joinLobby_eq rnd lobby sid nickname g1 hg1]
  constructor
  · intro hlt
    have : ¬ g1.players.length = 4 := by omega
    rw [if_neg this]
    exact ⟨by rw [g1_st, hst], g1_seats, g1_hand, g1_deck⟩
  · intro h4
    have h4g : g1.players.length = 4 := by omega
    rw [if_pos h4g, h4g]
    obtain ⟨g2, hg2⟩ : ∃ g2 : Lobby, g2 = { g1 with started := true } := ⟨_, rfl⟩
    rw [← hg2]
    have g2_deck : g2.deck.reverse = lobby.deck.reverse := by rw [hg2, ← g1_deck]
    have g2_len : g2.players.length = 4 := by rw [hg2]; exact h4g
    have g2_hand : ∀ k, handAt g2 k = [] := fun k => by rw [hg2]; exact g1_hand k
    have hslen : lobby.deck.reverse.length = 60 := by rw [List.length_reverse, hlen]
    obtain ⟨hf, hd, hp, hh⟩ := dealFrom_pop rnd 4 0 g2 lobby.deck.reverse g2_deck
      (by rw [hslen]; omega) (by rw [g2_len])
    obtain ⟨top, rest, hsplit⟩ : ∃ top rest, lobby.deck.reverse.drop 28 = top :: rest := by
      cases hc : lobby.deck.reverse.drop 28 with
      | nil =>
        have := congrArg List.length hc
        rw [List.length_drop, hslen] at this
        simp at this
      | cons a b => exact ⟨a, b, rfl⟩
    obtain ⟨h1, h2, h3⟩ := draw_pop rnd (dealFrom rnd 4 0 g2) top rest (by rw [hd]; exact hsplit)
    obtain ⟨hf3, hpl3⟩ := draw_frame rnd (dealFrom rnd 4 0 g2)
    have hfr := hf3.trans hf
    simp only [frame, Prod.mk.injEq] at hfr
    obtain ⟨hseats, -, hcur, hdr, hstd, -, -, -⟩ := hfr
    have htop28 : lobby.deck.reverse[28]? = some top := by
      have := congrArg List.head? hsplit
      rw [List.head?_drop] at this
      simpa using this
    have hrest : rest = lobby.deck.reverse.drop 29 := by
      have := congrArg List.tail hsplit
      rw [List.tail_drop] at this
      simpa using this.symm
    refine ⟨?_, ?_, fun k hk => ?_, ?_, ⟨top, ?_⟩, ?_, ?_, ?_, rfl, ?_, ?_⟩
    · dsimp only
      rw [hstd, hg2]
    · rw [seats_flip, hseats, hg2]
      exact g1_seats
    · have e : handAt (drawCardFromDeck rnd (dealFrom rnd 4 0 g2)).2 k =
          handAt (dealFrom rnd 4 0 g2) k := by
        simp only [handAt, hpl3]
      have hk2 : 0 ≤ k ∧ k < 0 + 4 := by omega
      rw [handAt_flip, e, hh, if_pos hk2, g2_hand, List.nil_append, Nat.sub_zero]
      refine ⟨rfl, ?_⟩
      rw [List.length_map, List.length_take, List.length_drop, hslen]
      omega
    · dsimp only
      rw [h1, htop28]
    · dsimp only
      rw [h1]
    · dsimp only
      rw [h2, hrest]
    · dsimp only
      have := congrArg List.length h2
      rw [List.length_reverse] at this
      rw [this, hrest, List.length_drop, hslen]
    · have hnd2 : (lobby.deck.reverse.map Card.id).Nodup := by
        rw [List.map_reverse]
        exact List.nodup_reverse.mpr hnd
      rw [List.map_take]
      exact hnd2.sublist (List.take_sublist _ _)
    · dsimp only
      rw [hcur, hg2]
      dsimp only
      rw [g1_cp, hcp]
    · dsimp only
      rw [hdr, hg2]
      dsimp only
      rw [g1_dir, hdir]


/-! ## Reachable states -/

theorem keeps_refl (l : Lobby) : Keeps l l := ⟨rfl, rfl, rfl, id⟩

theorem keeps_trans {a b c : Lobby} (h1 : Keeps a b) (h2 : Keeps b c) : Keeps a c :=
  ⟨h2.1.trans h1.1, h2.2.1.trans h1.2.1, h2.2.2.1.trans h1.2.2.1, fun h => h2.2.2.2 (h1.2.2.2 h)⟩

theorem keeps_of_frame {g h : Lobby} (e : frame h = frame g) : Keeps g h := by
  have hlen := frame_players_length e
  simp only [frame, Prod.mk.injEq] at e
  obtain ⟨-, -, hc, hd, hs, hw, -, -⟩ := e
  refine ⟨hlen, hs, hw, fun ⟨h1, h2, h3⟩ => ?_⟩
  unfold TurnOk
  rw [hd, hc, hlen]
  exact ⟨h1, h2, h3⟩

theorem keeps_nextTurn (g : Lobby) : Keeps g (nextTurn g) := by
  obtain ⟨hp, -, -, -, hd, hs, hw, -, -⟩ := nextTurn_frame g
  refine ⟨by rw [hp], hs, hw, fun ⟨h1, h2, h3⟩ => ?_⟩
  have hpos : 0 < g.players.length := by omega
  have hr := nextTurn_range g hpos h2 h1
  unfold TurnOk
  rw [hd, hp]
  exact ⟨h1, hr.1, hr.2⟩

theorem keeps_drawInto (rnd : Nat → Nat) (g : Lobby) (i : Nat) : Keeps g (drawInto rnd g i) :=
  keeps_of_frame (drawInto_spec rnd g i).1

theorem keeps_drawMany (rnd : Nat → Nat) (n : Nat) (g : Lobby) (i : Nat) :
    Keeps g (drawMany rnd n g i) :=
  keeps_of_frame (drawMany_spec rnd n g i).1

theorem keeps_fields (g h : Lobby) (hp : h.players.length = g.players.length)
    (hs : h.started = g.started) (hw : h.winner = g.winner)
    (hc : h.currentPlayer = g.currentPlayer) (hd : h.direction = g.direction) : Keeps g h := by
  refine ⟨hp, hs, hw, fun ⟨h1, h2, h3⟩ => ?_⟩
  unfold TurnOk
  rw [hd, hc, hp]
  exact ⟨h1, h2, h3⟩

theorem keeps_moveToDiscard (g : Lobby) (a : Nat) (actor : Player) (idx : Nat) (c : Card) :
    Keeps g (moveToDiscard g a actor idx c) :=
  keeps_fields _ _ (by simp [moveToDiscard]) rfl rfl rfl rfl

theorem keeps_paint (g : Lobby) (cid : Nat) (col : Color) (b : Bool) :
    Keeps g { paintCard g cid col with awaitingColor := b } :=
  keeps_fields _ _ (by simp [paintCard]) rfl rfl rfl rfl

theorem keeps_clock (g : Lobby) (t : Int) : Keeps g { g with turnTime := t } :=
  keeps_fields _ _ rfl rfl rfl rfl rfl

theorem keeps_awaiting (g : Lobby) (b : Bool) : Keeps g { g with awaitingColor := b } :=
  keeps_fields _ _ rfl rfl rfl rfl rfl

theorem keeps_reverse (g : Lobby) : Keeps g { g with direction := g.direction * -1 } := by
  refine ⟨rfl, rfl, rfl, fun ⟨h1, h2, h3⟩ => ⟨?_, h2, h3⟩⟩
  dsimp only
  rcases h1 with h | h <;> rw [h] <;> simp

theorem evolves_refl (l : Lobby) : Evolves l l := ⟨rfl, Iff.rfl, id⟩

theorem evolves_of_keeps {l t : Lobby} (h : Keeps l t) : Evolves l t := by
  obtain ⟨h1, h2, h3, h4⟩ := h
  refine ⟨h1, ?_, h4⟩
  unfold closed
  rw [h2, h3]

theorem applyEffect_keeps (rnd : Nat → Nat) (g g2 : Lobby) (t : CardType)
    (h : applyEffect rnd g t = some g2) : Keeps g g2 := by
  unfold applyEffect at h
  cases t with
  | reverse =>
    simp only [Option.some.injEq] at h
    subst h
    exact keeps_reverse g
  | skip =>
    simp only [Option.some.injEq] at h
    subst h
    exact keeps_nextTurn g
  | plus2 =>
    simp only at h
    cases hs : seatIndex (nextTurn g) with
    | none => simp [hs] at h
    | some i =>
      simp only [hs, Option.some.injEq] at h
      subst h
      exact keeps_trans (keeps_nextTurn g) (keeps_drawMany rnd 2 _ i)
  | number => simp only [Option.some.injEq] at h; subst h; exact keeps_refl g
  | wild => simp only [Option.some.injEq] at h; subst h; exact keeps_refl g
  | wildPlus4 => simp only [Option.some.injEq] at h; subst h; exact keeps_refl g

theorem winCheck_evolves (lb lb2 : Leaderboard) (g t : Lobby) (pidx : Nat)
    (hs : g.started = true) (h : winCheck lb g pidx = some (t, lb2)) : Evolves g t := by
  unfold winCheck at h
  cases hp : g.players[pidx]? with
  | none => simp [hp] at h
  | some p =>
    simp only [hp] at h
    by_cases hl : p.hand.length = 0
    · simp only [hl, if_true, Option.some.injEq, Prod.mk.injEq] at h
      obtain ⟨h1, -⟩ := h
      subst h1
      refine ⟨rfl, ?_, fun ht => ht⟩
      unfold closed
      simp [hs]
    · simp only [hl, if_false, Option.some.injEq, Prod.mk.injEq] at h
      obtain ⟨h1, -⟩ := h
      subst h1
      exact evolves_of_keeps (keeps_trans (keeps_nextTurn g) (keeps_clock _ 30))

theorem evolves_of_keeps_evolves {a b c : Lobby} (h1 : Keeps a b) (h2 : Evolves b c) :
    Evolves a c := by
  obtain ⟨k1, k2, k3, k4⟩ := h1
  obtain ⟨e1, e2, e3⟩ := h2
  refine ⟨e1.trans k1, ?_, fun h => e3 (k4 h)⟩
  rw [← e2]
  unfold closed
  rw [k2, k3]

theorem playCard_evolves (rnd : Nat → Nat) (lb lb2 : Leaderboard) (l t : Lobby) (pidx : Nat)
    (card : Card) (hs : l.started = true) (h : playCard rnd lb l pidx card = some (t, lb2)) :
    Evolves l t := by
  unfold playCard at h
  cases hp : l.players[pidx]? with
  | none => simp [hp] at h
  | some player =>
    simp only [hp] at h
    cases hf : findIndexById player.hand card.id with
    | none => simp [hf] at h
    | some r =>
      cases r with
      | none =>
        simp only [hf, Option.some.injEq, Prod.mk.injEq] at h
        rw [← h.1]
        exact evolves_refl l
      | some idx =>
        simp only [hf] at h
        cases hc : player.hand[idx]? with
        | none => simp [hc] at h
        | some oc =>
          cases oc with
          | none => simp [hc] at h
          | some candidate =>
            simp only [hc] at h
            by_cases hl : canPlayCard candidate l.topCard = false
            · rw [if_pos hl] at h
              simp only [Option.some.injEq, Prod.mk.injEq] at h
              rw [← h.1]
              exact evolves_refl l
            · rw [if_neg hl] at h
              by_cases hw : candidate.isWild = true
              · rw [if_pos hw] at h
                simp only [Option.some.injEq, Prod.mk.injEq] at h
                rw [← h.1]
                exact evolves_of_keeps
                  (keeps_trans (keeps_moveToDiscard l pidx player idx candidate)
                    (keeps_awaiting _ true))
              · rw [if_neg hw] at h
                cases he : applyEffect rnd (moveToDiscard l pidx player idx candidate)
                    candidate.type with
                | none => simp [he] at h
                | some g2 =>
                  simp only [he] at h
                  have k := keeps_trans (keeps_moveToDiscard l pidx player idx candidate)
                    (applyEffect_keeps rnd _ g2 _ he)
                  exact evolves_of_keeps_evolves k
                    (winCheck_evolves lb lb2 g2 t pidx (by rw [k.2.1]; exact hs) h)

theorem onPlayCard_evolves (rnd : Nat → Nat) (lb lb2 : Leaderboard) (l t : Lobby) (sid : Nat)
    (card : Card) (h : onPlayCard rnd lb l sid card = some (t, lb2)) : Evolves l t := by
  unfold onPlayCard at h
  by_cases hs : l.started = false
  · rw [if_pos hs] at h
    simp only [Option.some.injEq, Prod.mk.injEq] at h
    rw [← h.1]
    exact evolves_refl l
  · rw [if_neg hs] at h
    have hst : l.started = true := by simpa using hs
    cases hf : l.players.findIdx? (fun p => p.id == sid) with
    | none =>
      simp only [hf, Option.some.injEq, Prod.mk.injEq] at h
      rw [← h.1]
      exact evolves_refl l
    | some pidx =>
      simp only [hf] at h
      cases hc : seatIndex l with
      | none => simp [hc] at h
      | some ci =>
        simp only [hc] at h
        cases hq : l.players[ci]? with
        | none => simp [hq] at h
        | some cur =>
          simp only [hq] at h
          by_cases hid : cur.id ≠ sid
          · rw [if_pos hid] at h
            simp only [Option.some.injEq, Prod.mk.injEq] at h
            rw [← h.1]
            exact evolves_refl l
          · rw [if_neg hid] at h
            exact playCard_evolves rnd lb lb2 l t pidx card hst h

theorem onChooseColor_evolves (rnd : Nat → Nat) (l t : Lobby) (color : Color)
    (h : onChooseColor rnd l color = some t) : Evolves l t := by
  unfold onChooseColor at h
  by_cases hs : l.started = false
  · rw [if_pos hs] at h
    simp only [Option.some.injEq] at h
    rw [← h]
    exact evolves_refl l
  · rw [if_neg hs] at h
    cases ht : l.topCard with
    | none =>
      simp only [ht, Option.some.injEq] at h
      rw [← h]
      exact evolves_refl l
    | some top =>
      simp only [ht] at h
      by_cases hw : top.isWild = true
      · rw [if_pos hw] at h
        by_cases h4 : top.type = CardType.wildPlus4
        · rw [if_pos h4] at h
          cases hi : seatIndex
              (nextTurn { paintCard l top.id color with awaitingColor := false }) with
          | none => simp [hi] at h
          | some i =>
            simp only [hi, Option.some.injEq] at h
            rw [← h]
            exact evolves_of_keeps
              (keeps_trans (keeps_paint l top.id color false)
                (keeps_trans (keeps_nextTurn _)
                  (keeps_trans (keeps_drawMany rnd 4 _ i)
                    (keeps_trans (keeps_nextTurn _) (keeps_clock _ 30)))))
        · rw [if_neg h4] at h
          simp only [Option.some.injEq] at h
          rw [← h]
          exact evolves_of_keeps
            (keeps_trans (keeps_paint l top.id color false)
              (keeps_trans (keeps_nextTurn _) (keeps_clock _ 30)))
      · rw [if_neg hw] at h
        simp only [Option.some.injEq] at h
        rw [← h]
        exact evolves_refl l

theorem onDrawCard_evolves (rnd : Nat → Nat) (l t : Lobby) (sid : Nat)
    (h : onDrawCard rnd l sid = some t) : Evolves l t := by
  unfold onDrawCard at h
  by_cases hs : l.started = false
  · rw [if_pos hs] at h
    simp only [Option.some.injEq] at h
    rw [← h]
    exact evolves_refl l
  · rw [if_neg hs] at h
    cases hf : l.players.findIdx? (fun p => p.id == sid) with
    | none =>
      simp only [hf, Option.some.injEq] at h
      rw [← h]
      exact evolves_refl l
    | some pidx =>
      simp only [hf] at h
      cases hc : seatIndex l with
      | none => simp [hc] at h
      | some ci =>
        simp only [hc] at h
        cases hq : l.players[ci]? with
        | none => simp [hq] at h
        | some cur =>
          simp only [hq] at h
          by_cases hid : cur.id ≠ sid
          · rw [if_pos hid] at h
            simp only [Option.some.injEq] at h
            rw [← h]
            exact evolves_refl l
          · rw [if_neg hid] at h
            simp only [Option.some.injEq] at h
            rw [← h]
            exact evolves_of_keeps
              (keeps_trans (keeps_drawInto rnd l pidx)
                (keeps_trans (keeps_nextTurn _) (keeps_clock _ 30)))

theorem tick_evolves (rnd : Nat → Nat) (l : Lobby) : Evolves l (tick rnd l) := by
  unfold tick
  by_cases hs : l.started = false
  · rw [if_pos hs]
    exact evolves_refl l
  · rw [if_neg hs]
    dsimp only
    by_cases ht : l.turnTime - 1 ≤ 0
    · rw [if_pos ht]
      cases hi : seatIndex { l with turnTime := l.turnTime - 1 } with
      | none =>
        exact evolves_of_keeps
          (keeps_trans (keeps_clock l (l.turnTime - 1))
            (keeps_trans (keeps_nextTurn _) (keeps_clock _ 30)))
      | some i =>
        exact evolves_of_keeps
          (keeps_trans (keeps_clock l (l.turnTime - 1))
            (keeps_trans (keeps_drawInto rnd _ i)
              (keeps_trans (keeps_nextTurn _) (keeps_clock _ 30))))
    · rw [if_neg ht]
      exact evolves_of_keeps (keeps_clock l (l.turnTime - 1))

theorem lobbyOk_of_evolves {l t : Lobby} (h : Evolves l t) (hl : LobbyOk l) : LobbyOk t := by
  obtain ⟨h1, h2, h3⟩ := h
  obtain ⟨o1, o2, o3⟩ := hl
  exact ⟨h3 o1, by rw [h1]; exact o2, fun hc => by rw [h1]; exact o3 (h2.mpr hc)⟩

theorem dealFrom_frame (rnd : Nat → Nat) (n : Nat) :
    ∀ (i : Nat) (g : Lobby), frame (dealFrom rnd n i g) = frame g := by
  induction n with
  | zero => intro i g; rfl
  | succ n ih =>
    intro i g
    rw [dealFrom_succ]
    exact (ih (i + 1) _).trans (drawMany_spec rnd 7 g i).1

/-- What `joinGame` does to the lobby it picked. -/
theorem joinLobby_spec (rnd : Nat → Nat) (l : Lobby) (sid : Nat) (nickname : String)
    (hs : l.started = false) (hw : l.winner = none) (hlt : l.players.length < 4)
    (hd : l.direction = 1 ∨ l.direction = -1) (h0 : 0 ≤ l.currentPlayer)
    (h1 : l.currentPlayer ≤ l.players.length) :
    (joinLobby rnd l sid nickname).players.length = l.players.length + 1 ∧
    seats (joinLobby rnd l sid nickname) = seats l ++ [(sid, nickname, false)] ∧
    LobbyOk (joinLobby rnd l sid nickname) := by
  obtain ⟨g1, hg1⟩ : ∃ g1 : Lobby, g1 = { l with players := l.players ++
      [{ id := sid, nickname := nickname, hand := [], isBot := false }] } := ⟨_, rfl⟩
  have g1_len : g1.players.length = l.players.length + 1 := by rw [hg1]; simp
  have g1_seats : seats g1 = seats l ++ [(sid, nickname, false)] := by rw [hg1]; simp [seats]
  have g1_turn : TurnOk g1 := by
    unfold TurnOk
    rw [g1_len, hg1]
    dsimp only
    exact ⟨hd, h0, by omega⟩
  have g1_w : g1.winner = none := by rw [hg1]; exact hw
  have g1_s : g1.started = false := by rw [hg1]; exact hs
  rw [joinLobby_eq rnd l sid nickname g1 hg1]
  by_cases h4 : g1.players.length = 4
  · rw [if_pos h4]
    obtain ⟨g2, hg2⟩ : ∃ g2 : Lobby, g2 = { g1 with started := true } := ⟨_, rfl⟩
    rw [← hg2]
    have g2_turn : TurnOk g2 := by rw [hg2]; exact g1_turn
    have hf1 : frame (dealFrom rnd g1.players.length 0 g2) = frame g2 := by
      rw [h4]
      exact dealFrom_frame rnd 4 0 g2
    have hf2 := (draw_frame rnd (dealFrom rnd g1.players.length 0 g2)).1
    have hk := keeps_of_frame (hf2.trans hf1)
    obtain ⟨k1, k2, k3, k4⟩ := hk
    have hlen : g2.players.length = l.players.length + 1 := by rw [hg2]; exact g1_len
    refine ⟨?_, ?_, ?_, ?_, ?_⟩
    · dsimp only
      rw [k1, hlen]
    · rw [seats_flip]
      have e := hf2.trans hf1
      simp only [frame, Prod.mk.injEq] at e
      rw [e.1, hg2]
      exact g1_seats
    · have t := k4 g2_turn
      exact t
    · dsimp only
      rw [k1, hlen]
      omega
    · intro _
      dsimp only
      rw [k1, hg2]
      exact h4
  · rw [if_neg h4]
    refine ⟨g1_len, g1_seats, g1_turn, by omega, fun hc => ?_⟩
    unfold closed at hc
    rw [g1_s, g1_w] at hc
    simp at hc

theorem tracks_refl (s : Server) : Tracks s s :=
  fun _ l h => ⟨l, h, fun hc => ⟨hc, rfl⟩⟩

theorem tracks_trans {a b c : Server} (h1 : Tracks a b) (h2 : Tracks b c) : Tracks a c := by
  intro i l hl
  obtain ⟨m, hm, hmc⟩ := h1 i l hl
  obtain ⟨n, hn, hnc⟩ := h2 i m hm
  refine ⟨n, hn, fun hc => ?_⟩
  obtain ⟨c1, e1⟩ := hmc hc
  obtain ⟨c2, e2⟩ := hnc c1
  exact ⟨c2, e2.trans e1⟩

/-- Replacing the lobby at index `li` by one it evolves to keeps the server
invariant and the indices. -/
theorem set_step (s t : Server) (li : Nat) (l m : Lobby) (hs : ServerOk s)
    (hl : s.lobbies[li]? = some l) (he : Evolves l m) (ht : t.lobbies = s.lobbies.set li m) :
    ServerOk t ∧ Tracks s t := by
  have hlt := getElem?_lt hl
  constructor
  · intro x hx
    rw [ht] at hx
    rcases List.mem_or_eq_of_mem_set hx with h | h
    · exact hs x h
    · rw [h]
      exact lobbyOk_of_evolves he (hs l (List.getElem?_mem hl))
  · intro i x hx
    by_cases hi : i = li
    · subst hi
      rw [hl] at hx
      cases hx
      refine ⟨m, by rw [ht]; simp [List.getElem?_set, hlt], fun hc => ⟨he.2.1.mp hc, he.1⟩⟩
    · have hi2 : li ≠ i := fun e => hi e.symm
      exact ⟨x, by rw [ht, List.getElem?_set_ne hi2]; exact hx, fun hc => ⟨hc, rfl⟩⟩

theorem handlePlayCard_step (rnd : Nat → Nat) (s t : Server) (sid : Nat) (card : Card)
    (hs : ServerOk s) (h : handlePlayCard rnd s sid card = some t) :
    ServerOk t ∧ Tracks s t := by
  unfold handlePlayCard at h
  cases hf : findSeatedLobby s sid with
  | none =>
    simp only [hf, Option.some.injEq] at h
    subst h
    exact ⟨hs, tracks_refl s⟩
  | some li =>
    simp only [hf] at h
    cases hl : s.lobbies[li]? with
    | none =>
      simp only [hl, Option.some.injEq] at h
      subst h
      exact ⟨hs, tracks_refl s⟩
    | some l =>
      simp only [hl] at h
      cases hr : onPlayCard rnd s.leaderboard l sid card with
      | none => simp [hr] at h
      | some r =>
        obtain ⟨m, lb2⟩ := r
        simp only [hr, Option.some.injEq] at h
        subst h
        exact set_step s _ li l m hs hl (onPlayCard_evolves rnd _ lb2 l m sid card hr) rfl

theorem handleChooseColor_step (rnd : Nat → Nat) (s t : Server) (sid : Nat) (color : Color)
    (hs : ServerOk s) (h : handleChooseColor rnd s sid color = some t) :
    ServerOk t ∧ Tracks s t := by
  unfold handleChooseColor at h
  cases hf : findSeatedLobby s sid with
  | none =>
    simp only [hf, Option.some.injEq] at h
    subst h
    exact ⟨hs, tracks_refl s⟩
  | some li =>
    simp only [hf] at h
    cases hl : s.lobbies[li]? with
    | none =>
      simp only [hl, Option.some.injEq] at h
      subst h
      exact ⟨hs, tracks_refl s⟩
    | some l =>
      simp only [hl] at h
      cases hr : onChooseColor rnd l color with
      | none => simp [hr] at h
      | some m =>
        simp only [hr, Option.some.injEq] at h
        subst h
        exact set_step s _ li l m hs hl (onChooseColor_evolves rnd l m color hr) rfl

theorem handleDrawCard_step (rnd : Nat → Nat) (s t : Server) (sid : Nat)
    (hs : ServerOk s) (h : handleDrawCard rnd s sid = some t) :
    ServerOk t ∧ Tracks s t := by
  unfold handleDrawCard at h
  cases hf : findSeatedLobby s sid with
  | none =>
    simp only [hf, Option.some.injEq] at h
    subst h
    exact ⟨hs, tracks_refl s⟩
  | some li =>
    simp only [hf] at h
    cases hl : s.lobbies[li]? with
    | none =>
      simp only [hl, Option.some.injEq] at h
      subst h
      exact ⟨hs, tracks_refl s⟩
    | some l =>
      simp only [hl] at h
      cases hr : onDrawCard rnd l sid with
      | none => simp [hr] at h
      | some m =>
        simp only [hr, Option.some.injEq] at h
        subst h
        exact set_step s _ li l m hs hl (onDrawCard_evolves rnd l m sid hr) rfl

theorem handleTick_step (rnd : Nat → Nat) (s : Server) (li : Nat) (hs : ServerOk s) :
    ServerOk (handleTick rnd s li) ∧ Tracks s (handleTick rnd s li) := by
  unfold handleTick
  cases hl : s.lobbies[li]? with
  | none => exact ⟨hs, tracks_refl s⟩
  | some l => exact set_step s _ li l (tick rnd l) hs hl (tick_evolves rnd l) rfl

theorem handleDisconnect_step (s : Server) (sid : Nat) (hs : ServerOk s) :
    ServerOk (handleDisconnect s sid) ∧ Tracks s (handleDisconnect s sid) := by
  unfold handleDisconnect
  cases hf : findSeatedLobby s sid with
  | none => exact ⟨hs, tracks_refl s⟩
  | some li =>
    dsimp only
    cases hl : s.lobbies[li]? with
    | none => exact ⟨hs, tracks_refl s⟩
    | some l =>
      dsimp only
      cases hp : l.players.findIdx? (fun p => p.id == sid) with
      | none => exact ⟨hs, tracks_refl s⟩
      | some pidx =>
        dsimp only
        cases hq : l.players[pidx]? with
        | none => exact ⟨hs, tracks_refl s⟩
        | some p =>
          dsimp only
          exact set_step s _ li l
            { l with players := l.players.set pidx { p with isBot := true } } hs hl
            (evolves_of_keeps (keeps_fields l _ (by simp) rfl rfl rfl rfl)) rfl

theorem findLobby_test : (fun l : Lobby => !l.started && decide (l.players.length < 4)) = joinable :=
  rfl

theorem handleJoinGame_pick (rnd : Nat → Nat) (now : Nat) (s : Server) (sid : Nat)
    (nickname : String) (i : Nat) (l : Lobby)
    (hf : s.lobbies.findIdx? joinable = some i) (hl : s.lobbies[i]? = some l) :
    handleJoinGame rnd now s sid nickname =
      { s with lobbies := s.lobbies.set i (joinLobby rnd l sid nickname) } := by
  unfold handleJoinGame findLobby
  rw [findLobby_test, hf]
  dsimp only
  rw [hl]

theorem handleJoinGame_new (rnd : Nat → Nat) (now : Nat) (s : Server) (sid : Nat)
    (nickname : String) (hf : s.lobbies.findIdx? joinable = none) :
    handleJoinGame rnd now s sid nickname =
      { s with
          lobbies := s.lobbies ++ [joinLobby rnd (createLobby rnd now s.cardId).1 sid nickname],
          cardId := (createLobby rnd now s.cardId).2 } := by
  unfold handleJoinGame findLobby
  rw [findLobby_test, hf]
  dsimp only
  rw [List.getElem?_append_right (Nat.le_refl _), Nat.sub_self]
  simp only [List.getElem?_cons_zero]
  congr 1
  rw [List.set_append_right _ _ (Nat.le_refl _), Nat.sub_self]
  rfl

theorem joinable_iff (l : Lobby) :
    joinable l = true ↔ l.started = false ∧ l.players.length < 4 := by
  simp [joinable]

theorem createLobby_fields (rnd : Nat → Nat) (now cardId : Nat) :
    (createLobby rnd now cardId).1.started = false ∧
    (createLobby rnd now cardId).1.winner = none ∧
    (createLobby rnd now cardId).1.players = [] ∧
    (createLobby rnd now cardId).1.direction = 1 ∧
    (createLobby rnd now cardId).1.currentPlayer = 0 := by
  simp only [createLobby, and_self]

theorem handleJoinGame_step (rnd : Nat → Nat) (now : Nat) (s : Server) (sid : Nat)
    (nickname : String) (hs : ServerOk s) :
    ServerOk (handleJoinGame rnd now s sid nickname) ∧
    Tracks s (handleJoinGame rnd now s sid nickname) := by
  cases hf : s.lobbies.findIdx? joinable with
  | none =>
    rw [handleJoinGame_new rnd now s sid nickname hf]
    obtain ⟨c1, c2, c3, c4, c5⟩ := createLobby_fields rnd now s.cardId
    have hok := (joinLobby_spec rnd (createLobby rnd now s.cardId).1 sid nickname c1 c2
      (by rw [c3]; decide) (Or.inl c4) (by rw [c5]) (by rw [c5, c3]; decide)).2.2
    constructor
    · intro x hx
      dsimp only at hx
      rcases List.mem_append.mp hx with h | h
      · exact hs x h
      · rw [List.mem_singleton.mp h]
        exact hok
    · intro i l hl
      refine ⟨l, ?_, fun hc => ⟨hc, rfl⟩⟩
      dsimp only
      rw [List.getElem?_append_left (getElem?_lt hl)]
      exact hl
  | some i =>
    obtain ⟨hlt, hj, -⟩ := List.findIdx?_eq_some_iff_getElem.mp hf
    have hl : s.lobbies[i]? = some s.lobbies[i] := List.getElem?_eq_getElem hlt
    obtain ⟨l, hle⟩ : ∃ l, l = s.lobbies[i] := ⟨_, rfl⟩
    rw [← hle] at hl hj
    rw [handleJoinGame_pick rnd now s sid nickname i l hf hl]
    obtain ⟨j1, j2⟩ := (joinable_iff l).mp hj
    obtain ⟨⟨t1, t2, t3⟩, -, o3⟩ := hs l (List.getElem?_mem hl)
    have hnc : ¬ closed l := fun hc => by
      have := o3 hc
      omega
    have hw : l.winner = none := by
      by_contra hne
      exact hnc (Or.inr hne)
    have hok := (joinLobby_spec rnd l sid nickname j1 hw j2 t1 t2 (by omega)).2.2
    constructor
    · intro x hx
      dsimp only at hx
      rcases List.mem_or_eq_of_mem_set hx with h | h
      · exact hs x h
      · rw [h]
        exact hok
    · intro k x hx
      by_cases hk : k = i
      · subst hk
        rw [hl] at hx
        cases hx
        exact ⟨joinLobby rnd l sid nickname, by dsimp only; simp [List.getElem?_set, hlt],
          fun hc => absurd hc hnc⟩
      · have hk2 : i ≠ k := fun e => hk e.symm
        exact ⟨x, by dsimp only; rw [List.getElem?_set_ne hk2]; exact hx, fun hc => ⟨hc, rfl⟩⟩

theorem step_ok {s t : Server} (hs : ServerOk s) (h : Step s t) : ServerOk t ∧ Tracks s t := by
  cases h with
  | joinGame rnd now _ sid nickname => exact handleJoinGame_step rnd now s sid nickname hs
  | playCard rnd _ _ sid card h => exact handlePlayCard_step rnd s t sid card hs h
  | chooseColor rnd _ _ sid color h => exact handleChooseColor_step rnd s t sid color hs h
  | drawCard rnd _ _ sid h => exact handleDrawCard_step rnd s t sid hs h
  | disconnect _ sid => exact handleDisconnect_step s sid hs
  | tick rnd _ li => exact handleTick_step rnd s li hs

theorem steps_ok {s t : Server} (hs : ServerOk s) (h : Relation.ReflTransGen Step s t) :
    ServerOk t ∧ Tracks s t := by
  induction h with
  | refl => exact ⟨hs, tracks_refl s⟩
  | tail _ hbc ih =>
    obtain ⟨h1, h2⟩ := step_ok ih.1 hbc
    exact ⟨h1, tracks_trans ih.2 h2⟩

theorem serverOk_empty : ServerOk emptyServer := by
  intro l hl
  simp [emptyServer] at hl

theorem reachable_ok {s : Server} (h : Reachable s) : ServerOk s :=
  (steps_ok serverOk_empty h).1

theorem joinLobby_seats (rnd : Nat → Nat) (l : Lobby) (sid : Nat) (nickname : String) :
    seats (joinLobby rnd l sid nickname) = seats l ++ [(sid, nickname, false)] := by
  obtain ⟨g1, hg1⟩ : ∃ g1 : Lobby, g1 = { l with players := l.players ++
      [{ id := sid, nickname := nickname, hand := [], isBot := false }] } := ⟨_, rfl⟩
  have g1_seats : seats g1 = seats l ++ [(sid, nickname, false)] := by rw [hg1]; simp [seats]
  rw [joinLobby_eq rnd l sid nickname g1 hg1]
  by_cases h4 : g1.players.length = 4
  · rw [if_pos h4, seats_flip]
    have e := (draw_frame rnd (dealFrom rnd g1.players.length 0 { g1 with started := true })).1.trans
      (dealFrom_frame rnd g1.players.length 0 { g1 with started := true })
    simp only [frame, Prod.mk.injEq] at e
    rw [e.1]
    exact g1_seats
  · rw [if_neg h4]
    exact g1_seats

/-- C17: `joinGame` seats the caller in the first lobby, in creation order,
that is not started and has fewer than 4 players, and creates and appends a
new lobby (seating the caller there) only when no lobby qualifies; in every
reachable server state no lobby has more than 4 players, and from a reachable
state on, a lobby that has started or has a winner keeps its index and its
roster size through every further sequence of events. -/
theorem join_matching_and_capacity :
    (∀ (rnd : Nat → Nat) (now : Nat) (s : Server) (sid : Nat) (nickname : String) (i : Nat)
        (l : Lobby),
      s.lobbies[i]? = some l → joinable l = true →
      (∀ (j : Nat) (m : Lobby), j < i → s.lobbies[j]? = some m → joinable m = false) →
      handleJoinGame rnd now s sid nickname =
        { s with lobbies := s.lobbies.set i (joinLobby rnd l sid nickname) }) ∧
    (∀ (rnd : Nat → Nat) (now : Nat) (s : Server) (sid : Nat) (nickname : String),
      (∀ l ∈ s.lobbies, joinable l = false) →
      handleJoinGame rnd now s sid nickname =
        { s with
            lobbies := s.lobbies ++
              [joinLobby rnd (createLobby rnd now s.cardId).1 sid nickname],
            cardId := (createLobby rnd now s.cardId).2 }) ∧
    (∀ (rnd : Nat → Nat) (l : Lobby) (sid : Nat) (nickname : String),
      seats (joinLobby rnd l sid nickname) = seats l ++ [(sid, nickname, false)]) ∧
    (∀ s : Server, Reachable s →
      (∀ l ∈ s.lobbies, l.players.length ≤ 4) ∧
      ∀ t : Server, Relation.ReflTransGen Step s t →
        ∀ (i : Nat) (l : Lobby), s.lobbies[i]? = some l → closed l →
          ∃ m, t.lobbies[i]? = some m ∧ m.players.length = l.players.length) := by
  refine ⟨?_, ?_, joinLobby_seats, ?_⟩
  · intro rnd now s sid nickname i l hl hj hfirst
    have hlt := getElem?_lt hl
    have hget : s.lobbies[i] = l := by
      have := List.getElem?_eq_getElem hlt
      rw [this] at hl
      exact Option.some.inj hl
    have hf : s.lobbies.findIdx? joinable = some i := by
      rw [List.findIdx?_eq_some_iff_getElem]
      refine ⟨hlt, by rw [hget]; exact hj, fun j hji => ?_⟩
      have hjl : j < s.lobbies.length := Nat.lt_trans hji hlt
      have := hfirst j _ hji (List.getElem?_eq_getElem hjl)
      rw [this]
      decide
    exact handleJoinGame_pick rnd now s sid nickname i l hf hl
  · intro rnd now s sid nickname hnone
    exact handleJoinGame_new rnd now s sid nickname (List.findIdx?_eq_none_iff.mpr hnone)
  · intro s hr
    have hok := reachable_ok hr
    refine ⟨fun l hl => (hok l hl).2.1, fun t ht i l hl hc => ?_⟩
    obtain ⟨m, hm, hmc⟩ := (steps_ok hok ht).2 i l hl
    exact ⟨m, hm, (hmc hc).2⟩

/-- C20: in every reachable server state, every lobby that has started (or
has finished) has direction +1 or -1 and `0 <= currentPlayer <
players.length = 4`, so `players[currentPlayer]` is a seated player. -/
theorem turn_state_well_formed (s : Server) (h : Reachable s) (l : Lobby) (hl : l ∈ s.lobbies)
    (hc : closed l) :
    (l.direction = 1 ∨ l.direction = -1) ∧ 0 ≤ l.currentPlayer ∧
    l.currentPlayer < l.players.length ∧ l.players.length = 4 ∧
    ∃ p : Player, seatIndex l = some l.currentPlayer.toNat ∧
      l.players[l.currentPlayer.toNat]? = some p := by
  obtain ⟨⟨t1, t2, t3⟩, -, o3⟩ := reachable_ok h l hl
  have hlt : l.currentPlayer.toNat < l.players.length := by omega
  exact ⟨t1, t2, t3, o3 hc, l.players[l.currentPlayer.toNat],
    seatIndex_of_range l t2 t3, List.getElem?_eq_getElem hlt⟩

theorem reachable_joinedFour : Reachable joinedFour := by
  unfold Reachable joinedFour
  exact (((Relation.ReflTransGen.refl.tail (Step.joinGame rndZero 7 _ 1 "A")).tail
    (Step.joinGame rndZero 7 _ 2 "B")).tail (Step.joinGame rndZero 7 _ 3 "C")).tail
    (Step.joinGame rndZero 7 _ 4 "D")

set_option maxRecDepth 100000 in
theorem lobbyOfFour_mem : lobbyOfFour ∈ joinedFour.lobbies := by
  decide

set_option maxRecDepth 100000 in
theorem lobbyOfThree_open : openFresh lobbyOfThree ∧ lobbyOfThree.players.length + 1 = 4 := by
  unfold openFresh
  decide


/-! ## Instances -/

/-- C1 at a red 5 on a red 3. -/
theorem canPlayCard_iff_isLegalPlay_witness :
    red5.wellFormed ∧ (canPlayCard red5 (some red3) = true ↔ isLegalPlay red5 (some red3)) :=
  ⟨by decide, canPlayCard_iff_isLegalPlay red5 (some red3) (by decide)⟩

/-- C9 (amended) at the table `lobbyPlus2`: A plays the red plus2. -/
theorem plus2_penalises_next_player_witness :
    ∃ (g : Lobby) (x y : Option Card),
      onPlayCard rndZero [] lobbyPlus2 1 redPlus2 = some (g, []) ∧
      g.currentPlayer = (((0 : Nat) : Int) + 2 * lobbyPlus2.direction) % 4 ∧
      (∀ k : Nat, handAt g k =
        if (k : Int) = (((0 : Nat) : Int) + lobbyPlus2.direction) % 4
        then handAt lobbyPlus2 k ++ [x, y]
        else if k = 0 then (seat 1 "A" [redPlus2, blue7]).hand.eraseIdx 0
        else handAt lobbyPlus2 k) ∧
      (1 ≤ pool lobbyPlus2 → x.isSome = true ∧ y.isSome = true) :=
  plus2_penalises_next_player rndZero [] lobbyPlus2 1 0 0 redPlus2 redPlus2
    (seat 1 "A" [redPlus2, blue7]) (by decide) (by decide) (by decide) (by decide) (by decide)
    (by decide) (by decide) (by decide) (by decide) (by decide) (by decide) (by decide)

/-- C10 at the table `lobbyWildFour`: A resolves the wild+4 to blue. -/
theorem chooseColor_resolves_wild_witness :
    ∃ g, onChooseColor rndZero lobbyWildFour Color.blue = some g ∧
      g.topCard = some { wildFourA with color := some Color.blue } ∧
      g.awaitingColor = false ∧
      (wildFourA.type = CardType.wildPlus4 → 4 ≤ pool lobbyWildFour →
        g.currentPlayer = (0 + 2 * lobbyWildFour.direction) % lobbyWildFour.players.length ∧
        ∃ c1 c2 c3 c4 : Card, ∀ k : Nat, handAt g k =
          if (k : Int) = (0 + lobbyWildFour.direction) % lobbyWildFour.players.length
          then handAt lobbyWildFour k ++ [some c1, some c2, some c3, some c4]
          else handAt lobbyWildFour k) ∧
      (wildFourA.type = CardType.wild →
        g.currentPlayer = (0 + lobbyWildFour.direction) % lobbyWildFour.players.length ∧
        ∀ k : Nat, handAt g k = handAt lobbyWildFour k) :=
  chooseColor_resolves_wild rndZero lobbyWildFour wildFourA Color.blue 0 (by decide) (by decide)
    (by decide) (by decide) (by decide) (by decide) (by decide) (by decide)

/-- C12 (as stated, refuted): A's last card is a skip, respectively a plus2.
The round ends with A as winner, but the turn has moved from seat 0 to seat
1, and after the plus2 B holds the two penalty cards. -/
theorem winning_skip_advances_turn :
    lobbyLastSkip.currentPlayer = 0 ∧
    (onPlayCard rndZero [] lobbyLastSkip 1 redSkip).map
        (fun r => (handAt r.1 0, r.1.winner, r.1.started, r.1.currentPlayer))
      = some ([], some "A", false, 1) ∧
    lobbyLastPlus2.currentPlayer = 0 ∧
    handAt lobbyLastPlus2 1 = [some green1, some green2] ∧
    (onPlayCard rndZero [] lobbyLastPlus2 1 redPlus2).map
        (fun r => (handAt r.1 0, r.1.winner, r.1.started, r.1.currentPlayer, handAt r.1 1))
      = some ([], some "A", false, 1,
              [some green1, some green2, some yellow8, some yellow9]) :=
  ⟨by decide, by decide, by decide, by decide, by decide⟩

/-- C11 at the table `lobbySkip`: A plays the red skip. -/
theorem skip_skips_next_player_witness :
    ∃ g : Lobby, onPlayCard rndZero [] lobbySkip 1 redSkip = some (g, []) ∧
      g.currentPlayer = (((0 : Nat) : Int) + 2 * lobbySkip.direction) % lobbySkip.players.length ∧
      g.direction = lobbySkip.direction ∧
      handAt g 0 = (seat 1 "A" [redSkip, blue7]).hand.eraseIdx 0 ∧
      ∀ k : Nat, k ≠ 0 → handAt g k = handAt lobbySkip k :=
  skip_skips_next_player rndZero [] lobbySkip 1 0 0 redSkip redSkip
    (seat 1 "A" [redSkip, blue7]) (by decide) (by decide) (by decide) (by decide) (by decide)
    (by decide) (by decide) (by decide) (by decide) (by decide) (by decide)

/-- C12 (amended) at the table `lobbyLastSkip`: A plays the red skip, A's last card. -/
theorem winning_card_effect_applies_witness :
    ∃ g : Lobby,
      onPlayCard rndZero [] lobbyLastSkip 1 redSkip =
        some (g, if (seat 1 "A" [redSkip]).isBot = false
                 then lbIncrement [] (seat 1 "A" [redSkip]).nickname else []) ∧
      g.winner = some (seat 1 "A" [redSkip]).nickname ∧ g.started = false ∧
      g.currentPlayer =
        (((0 : Nat) : Int) + lobbyLastSkip.direction) % lobbyLastSkip.players.length ∧
      handAt g 0 = [] ∧
      (redSkip.type = CardType.skip → ∀ k : Nat, k ≠ 0 → handAt g k = handAt lobbyLastSkip k) ∧
      (redSkip.type = CardType.plus2 → ∃ x y : Option Card, ∀ k : Nat, k ≠ 0 →
        handAt g k =
          if (k : Int) =
            (((0 : Nat) : Int) + lobbyLastSkip.direction) % lobbyLastSkip.players.length
          then handAt lobbyLastSkip k ++ [x, y] else handAt lobbyLastSkip k) :=
  winning_card_effect_applies rndZero [] lobbyLastSkip 1 0 redSkip redSkip (seat 1 "A" [redSkip])
    (by decide) (by decide) (by decide) (by decide) (by decide) (by decide) (by decide)
    (by decide) (by decide) (by decide) (by decide)

/-- C13 at the table `lobbyPlus2`: A sends the blue 7, illegal on a red 3. -/
theorem illegal_play_is_rejected_witness :
    onPlayCard rndZero [] lobbyPlus2 1 blue7 = some (lobbyPlus2, []) ∧
    ∀ other : Card, other.id = blue7.id →
      ∀ (r : Nat → Nat) (b : Leaderboard) (l : Lobby) (s : Nat),
        onPlayCard r b l s other = onPlayCard r b l s blue7 :=
  illegal_play_is_rejected rndZero [] lobbyPlus2 1 0 blue7 (seat 1 "A" [redPlus2, blue7])
    (by decide) (by decide) (by decide) (by decide) (by decide) (by decide)
    (by
      intro c hc hid
      simp only [seat, List.map_cons, List.map_nil, List.mem_cons, Option.some.injEq,
        List.mem_nil_iff, or_false] at hc
      rcases hc with h | h
      · subst h
        exact absurd hid (by decide)
      · subst h
        decide)

/-- C14 at the table `lobbyPlus2` with five calls. -/
theorem nextTurn_arithmetic_witness :
    (lobbyPlus2.direction = 1 →
      (nextTurn^[5] lobbyPlus2).currentPlayer = ((5 : Nat) : Int) % lobbyPlus2.players.length) ∧
    (lobbyPlus2.direction = -1 →
      (nextTurn^[5] lobbyPlus2).currentPlayer = (-((5 : Nat) : Int)) % lobbyPlus2.players.length ∧
      0 ≤ (-((5 : Nat) : Int)) % lobbyPlus2.players.length ∧
      (-((5 : Nat) : Int)) % lobbyPlus2.players.length < lobbyPlus2.players.length) ∧
    nextTurn lobbyPlus2 = { lobbyPlus2 with currentPlayer := (nextTurn lobbyPlus2).currentPlayer } :=
  nextTurn_arithmetic lobbyPlus2 5 (by decide) (by decide)

/-- C19 at the table `lobbyEmptyDeck`, whose pool holds two cards. -/
theorem drawCardFromDeck_returns_card_witness :
    ∃ c : Card, (drawCardFromDeck rndZero lobbyEmptyDeck).1 = some c ∧
      (c ∈ lobbyEmptyDeck.deck ∨ c ∈ lobbyEmptyDeck.discardPile) ∧
      pool (drawCardFromDeck rndZero lobbyEmptyDeck).2 + 1 = pool lobbyEmptyDeck :=
  drawCardFromDeck_returns_card rndZero lobbyEmptyDeck (by decide)

/-- C16 at the table `lobbyTimeout`: the clock runs out on A. -/
theorem tick_spec_witness :
    ∃ c : Card,
      (∀ k : Nat, handAt (tick rndZero lobbyTimeout) k =
        if (k : Int) = lobbyTimeout.currentPlayer then handAt lobbyTimeout k ++ [some c]
        else handAt lobbyTimeout k) ∧
      (tick rndZero lobbyTimeout).currentPlayer =
        (lobbyTimeout.currentPlayer + lobbyTimeout.direction) % lobbyTimeout.players.length ∧
      (tick rndZero lobbyTimeout).direction = lobbyTimeout.direction ∧
      (tick rndZero lobbyTimeout).turnTime = 30 :=
  (tick_spec rndZero lobbyTimeout).2.2 (by decide) (by decide) (by decide) (by decide)
    (by decide) (by decide)

/-- C18 (amended) at the table `lobbyRedFive`: A plays the red 5. -/
theorem playable_flag_spec_witness :
    ∃ g : Lobby, onPlayCard rndZero [] lobbyRedFive 1 red5 = some (g, []) ∧
      g.currentPlayer = 1 ∧
      g.players[1]? = some (seat 2 "B" [wildA, green1, green5, red9]) ∧
      ∀ c : Card, playableFlag g (seat 2 "B" [wildA, green1, green5, red9]) (some c) =
        some (decide (c.color = some Color.red ∨
          (c.type = CardType.number ∧ c.value = some 5) ∨
          c.type = CardType.wild ∨ c.type = CardType.wildPlus4)) :=
  playable_flag_spec.2.2.2 rndZero [] lobbyRedFive 1 0 red5 red5 red3
    (seat 1 "A" [red5, blue7]) (seat 2 "B" [wildA, green1, green5, red9])
    (by decide) (by decide) (by decide) (by decide) (by decide) (by decide) (by decide)
    (by decide) (by decide) (by decide) (by decide) (by decide) (by decide) (by decide)
    (by decide) (by decide) (by decide)

/-- C17 at the server `joinedFour`. -/
theorem join_matching_and_capacity_witness :
    (∀ l ∈ joinedFour.lobbies, l.players.length ≤ 4) ∧
    ∀ t : Server, Relation.ReflTransGen Step joinedFour t →
      ∀ (i : Nat) (l : Lobby), joinedFour.lobbies[i]? = some l → closed l →
        ∃ m, t.lobbies[i]? = some m ∧ m.players.length = l.players.length :=
  join_matching_and_capacity.2.2.2 joinedFour reachable_joinedFour

set_option maxRecDepth 100000 in
/-- C20 at the started lobby of the server `joinedFour`. -/
theorem turn_state_well_formed_witness :
    (lobbyOfFour.direction = 1 ∨ lobbyOfFour.direction = -1) ∧ 0 ≤ lobbyOfFour.currentPlayer ∧
    lobbyOfFour.currentPlayer < lobbyOfFour.players.length ∧ lobbyOfFour.players.length = 4 ∧
    ∃ p : Player, seatIndex lobbyOfFour = some lobbyOfFour.currentPlayer.toNat ∧
      lobbyOfFour.players[lobbyOfFour.currentPlayer.toNat]? = some p :=
  turn_state_well_formed joinedFour reachable_joinedFour lobbyOfFour lobbyOfFour_mem
    (Or.inl (by decide))

/-- C15 at the lobby `lobbyOfThree`: D joins as 4th player. -/
theorem joinGame_start_witness :
    (joinLobby rndZero lobbyOfThree 4 "D").started = true ∧
    seats (joinLobby rndZero lobbyOfThree 4 "D") = seats lobbyOfThree ++ [(4, "D", false)] ∧
    (∀ k : Nat, k < 4 → handAt (joinLobby rndZero lobbyOfThree 4 "D") k =
      ((lobbyOfThree.deck.reverse.drop (7 * k)).take 7).map some ∧
      (handAt (joinLobby rndZero lobbyOfThree 4 "D") k).length = 7) ∧
    (joinLobby rndZero lobbyOfThree 4 "D").topCard = lobbyOfThree.deck.reverse[28]? ∧
    (∃ top : Card, (joinLobby rndZero lobbyOfThree 4 "D").topCard = some top) ∧
    (joinLobby rndZero lobbyOfThree 4 "D").deck.reverse = lobbyOfThree.deck.reverse.drop 29 ∧
    (joinLobby rndZero lobbyOfThree 4 "D").deck.length = 31 ∧
    ((lobbyOfThree.deck.reverse.take 29).map Card.id).Nodup ∧
    (joinLobby rndZero lobbyOfThree 4 "D").turnTime = 30 ∧
    (joinLobby rndZero lobbyOfThree 4 "D").currentPlayer = 0 ∧
    (joinLobby rndZero lobbyOfThree 4 "D").direction = 1 :=
  (joinGame_start rndZero lobbyOfThree 4 "D" lobbyOfThree_open.1).2 lobbyOfThree_open.2


end Uno
